import Mathlib

/-!
# Verification of the luddo-ai-service training pipeline driver

Shallow embedding of `src/training/train.py` (the fine-tuning pipeline
driver).  Python strings are modelled as Lean `String` / `List Char`;
Python `int` as `ℤ` (with `Int.fdiv` / `Int.emod` for `//` and `%`,
matching Python's floor-division semantics); Python `float` values that
the script parses out of textual logs are modelled as `ℚ` (the script
only compares them for truthiness and stores them, so IEEE rounding is
irrelevant; corner cases such as `float("nan")`/`float("inf")` and
overflow are outside the model and noted where relevant).  File-system
and subprocess effects are modelled as an explicit event trace, with an
`Env` record carrying the outcomes of the external calls (subprocess
exit codes, existence of files, the lines the training subprocess
prints).

Python `dict.get(k, d)` on JSON-derived dictionaries is modelled with
`Option` fields plus `Option.getD`.
-/

/-! ## Python string primitives (over `List Char`)

These mirror the exact `str` operations the script uses: `in`
(substring test), `split(sep)`, `split()` (whitespace), `strip()`,
`int(...)`, `float(...)`, `lower()`, `title()`, `replace(':', '-')`.
They are written over `List Char` so that every definition reduces in
the kernel. -/

/-- Index of the first occurrence of `sep` as a sublist of `cs`
(Python `str.find`), `none` if absent. -/
def findSub (sep : List Char) : List Char → Option ℕ
  | [] => if sep = [] then some 0 else none
  | c :: cs => if sep.isPrefixOf (c :: cs) then some 0 else (findSub sep cs).map (· + 1)

/-- Python `sub in s` (substring containment). -/
def pyInL (sep cs : List Char) : Bool := (findSub sep cs).isSome

def pyIn (sep s : String) : Bool := pyInL sep.data s.data

/-- Worker for `pySplitL`, with fuel (one unit per emitted chunk
boundary; `cs.length + 1` always suffices). -/
def pySplitGo (sep : List Char) : ℕ → List Char → List Char → List (List Char)
  | 0, cs, acc => [acc.reverse ++ cs]
  | _ + 1, [], acc => [acc.reverse]
  | fuel + 1, c :: cs, acc =>
    if sep.isPrefixOf (c :: cs) then
      acc.reverse :: pySplitGo sep fuel ((c :: cs).drop sep.length) []
    else
      pySplitGo sep (fuel + 1 - 1) cs (c :: acc)

/-- Python `s.split(sep)` for a non-empty separator: keeps empty
chunks, non-overlapping leftmost matches. -/
def pySplitL (sep cs : List Char) : List (List Char) :=
  pySplitGo sep (cs.length + 1) cs []

/-- Python `s.split()` : split on runs of whitespace, dropping empties. -/
def pyWsSplitL (cs : List Char) : List (List Char) :=
  (cs.splitOnP Char.isWhitespace).filter (· ≠ [])

/-- Python `s.strip()`. -/
def pyStripL (cs : List Char) : List Char :=
  ((cs.dropWhile Char.isWhitespace).reverse.dropWhile Char.isWhitespace).reverse

/-- Digit-group parser shared by Python `int(...)` and `float(...)`:
digits with single underscores strictly between digits
(`digit (["_"] digit)*`).  Returns the value and the number of digits,
or `none` if the character list is not a valid group. -/
def pyDigits : List Char → ℕ → ℕ → Bool → Option (ℕ × ℕ)
  | [], acc, cnt, prevDigit => if prevDigit then some (acc, cnt) else none
  | '_' :: cs, acc, cnt, prevDigit =>
    if prevDigit then pyDigits cs acc cnt false else none
  | c :: cs, acc, cnt, _ =>
    if c.isDigit then pyDigits cs (acc * 10 + (c.toNat - 48)) (cnt + 1) true else none

/-- Python `int(s)` on a decimal literal: optional surrounding
whitespace, optional sign, digit group.  (Bases, and unicode digits,
do not occur in the scraped logs and are not modelled.) -/
def pyInt (s : String) : Option ℤ :=
  match pyStripL s.data with
  | '+' :: cs => (pyDigits cs 0 0 false).map fun p => (p.1 : ℤ)
  | '-' :: cs => (pyDigits cs 0 0 false).map fun p => -(p.1 : ℤ)
  | cs => (pyDigits cs 0 0 false).map fun p => (p.1 : ℤ)

/-- Mantissa of a float literal, as `(integer value, fractional value,
fractional digit count)`: `digitpart | [digitpart] "." digitpart |
digitpart "."`. -/
def pyMantissaParts (cs : List Char) : Option (ℕ × ℕ × ℕ) :=
  match pySplitL ['.'] cs with
  | [intPart] => (pyDigits intPart 0 0 false).map fun p => (p.1, 0, 0)
  | [intPart, fracPart] =>
    match intPart, fracPart with
    | [], [] => none
    | [], _ => (pyDigits fracPart 0 0 false).map fun p => (0, p.1, p.2)
    | _, [] => (pyDigits intPart 0 0 false).map fun p => (p.1, 0, 0)
    | _, _ =>
      match pyDigits intPart 0 0 false, pyDigits fracPart 0 0 false with
      | some i, some f => some (i.1, f.1, f.2)
      | _, _ => none
  | _ => none

/-- Exponent of a float literal: optional sign and a digit group. -/
def pyFloatExp (cs : List Char) : Option ℤ :=
  match cs with
  | '+' :: rest => (pyDigits rest 0 0 false).map fun p => (p.1 : ℤ)
  | '-' :: rest => (pyDigits rest 0 0 false).map fun p => -(p.1 : ℤ)
  | rest => (pyDigits rest 0 0 false).map fun p => (p.1 : ℤ)

/-- The exact rational `(ip + fv / 10 ^ fc) * 10 ^ e`, built with
`mkRat` (the `Rat` field operations are `@[irreducible]`, `mkRat` is
kernel-computable). -/
def decToRat (ip fv fc : ℕ) (e : ℤ) : ℚ :=
  if 0 ≤ e then mkRat (((ip * 10 ^ fc + fv) * 10 ^ e.toNat : ℕ) : ℤ) (10 ^ fc)
  else mkRat ((ip * 10 ^ fc + fv : ℕ) : ℤ) (10 ^ fc * 10 ^ (-e).toNat)

/-- Python `float(s)` on a finite decimal literal, as an exact
rational.  (`nan`/`inf` literals and IEEE overflow/underflow are not
modelled: the scraped `Train loss` values are plain decimals.) -/
def pyFloat (s : String) : Option ℚ :=
  let core : List Char → Option ℚ := fun cs =>
    match pySplitL ['e'] (cs.map Char.toLower) with
    | [mant] => (pyMantissaParts mant).map fun t => decToRat t.1 t.2.1 t.2.2 0
    | [mant, ex] =>
      match pyMantissaParts mant, pyFloatExp ex with
      | some t, some e => some (decToRat t.1 t.2.1 t.2.2 e)
      | _, _ => none
    | _ => none
  match pyStripL s.data with
  | '+' :: cs => core cs
  | '-' :: cs => (core cs).map Neg.neg
  | cs => core cs

/-- Python `int(x)` on a float: truncation toward zero.  Modelled on
the exact rational (`x.num.tdiv x.den`). -/
def pyIntTrunc (q : ℚ) : ℤ := Int.tdiv q.num (q.den : ℤ)

/-- Python `s[-n:]` for `n > 0`: the last `n` elements (the whole list
when it is shorter than `n`). -/
def pyTakeLast {α : Type} (n : ℕ) (l : List α) : List α := l.drop (l.length - n)

/-- Python `s.lower()` (ASCII inputs). -/
def pyLower (s : String) : String := ⟨s.data.map Char.toLower⟩

/-- Worker for `pyTitle`: `prevCased` records whether the previous
character was a letter. -/
def pyTitleGo : Bool → List Char → List Char
  | _, [] => []
  | prevCased, c :: cs =>
    let c' := if c.isAlpha then (if prevCased then c.toLower else c.toUpper) else c
    c' :: pyTitleGo c.isAlpha cs

/-- Python `s.title()` (ASCII inputs): first letter of every
letter-run uppercased, the rest lowercased. -/
def pyTitle (s : String) : String := ⟨pyTitleGo false s.data⟩

/-- Python `s.replace(':', '-')` (single-character pattern). -/
def pyReplaceColonDash (s : String) : String :=
  ⟨s.data.map fun c => if c = ':' then '-' else c⟩

/-- Truthiness of an optional Python string (`None` and `''` are
falsy). -/
def pyTruthyStr : Option String → Bool
  | none => false
  | some s => s ≠ ""


/-! ## Data model

Records mirroring the JSON dictionaries of `train.py`.  JSON values
read back from disk may lack fields, hence `Option` fields plus
`Option.getD` wherever the source uses `dict.get(k, default)`. -/

/-- One member of a dataset record's `messages` list
(`{"role": str, "content": str}`; either key may be absent). -/
structure Msg where
  role : Option String
  content : Option String
deriving DecidableEq

/-- One line of the JSONL dataset file, with `json.loads` (an external
library call) abstracted: a line is blank, fails to parse, or yields a
record with a `messages` list (`data.get('messages', [])`). -/
inductive DatasetLine
  | blank
  | malformed
  | record (messages : List Msg)
deriving DecidableEq

/-- LossHistoryEntry: `{'step': ..., 'loss': ..., 'epoch': ...}`
(train.py:427-431). -/
structure LossEntry where
  step : ℤ
  loss : ℚ
  epoch : ℤ
deriving DecidableEq

/-- A checkpoint as read back by `load_checkpoint` (train.py:73-78):
any field may be absent from the JSON object. -/
structure CheckpointFile where
  last_iter : Option ℤ
  last_loss : Option ℚ
  epoch : Option ℤ
  loss_history : Option (List LossEntry)
deriving DecidableEq

/-- The checkpoint payload written by `save_checkpoint`
(train.py:449-456). -/
structure CheckpointData where
  last_iter : ℤ
  last_loss : ℚ
  epoch : ℤ
  loss_history : List LossEntry
  total_iters : ℤ
  dataset_size : ℕ
deriving DecidableEq

/-- ProgressSnapshot: the JSON object passed to `write_progress`.
Optional fields default to `none` (absent from the dictionary); the
source also writes explicit `None` values, which JSON-serialise
identically to our `none`. -/
structure Snapshot where
  stage : String
  progress : ℤ
  message : String
  epoch : ℤ
  total_epochs : ℤ
  loss : Option ℚ := none
  learning_rate : Option ℚ := none
  dataset_size : Option ℕ := none
  step : Option ℤ := none
  total_steps : Option ℤ := none
  loss_history : Option (List LossEntry) := none
  error : Option String := none
  final_loss : Option ℚ := none
  model_path : Option String := none
  ollama_model : Option String := none
deriving DecidableEq

/-- The argparse result (train.py:86-95): string options default to
`None`, `--epochs` defaults to 3, `--resume` to false. -/
structure Args where
  base_model : Option String
  dataset : Option String
  output : Option String
  epochs : ℤ
  progress_file : Option String
  output_dir : Option String
  resume : Bool
deriving DecidableEq

/-- The parsed `--config` JSON file (train.py:98-107).  Outer `Option`:
key absent from the file; inner value: the JSON value stored there
(which may itself be `null`, hence `Option (Option String)` for the
string-valued keys — `config.get(k, d)` returns a present `null`). -/
structure ConfigFile where
  baseModel : Option (Option String)
  dataset : Option (Option String)
  output : Option (Option String)
  epochs : Option ℤ
  progressFile : Option (Option String)
  outputDir : Option (Option String)
  resume : Option Bool
deriving DecidableEq

/-! ## Dataset transformer (`convert_jsonl_to_mlx_format`, train.py:35-71) -/

/-- Renders one message into the running text, with the fixed per-role
delimiters (train.py:45-53); unknown roles contribute nothing.
`msg.get('role', 'user')` / `msg.get('content', '')` are the `getD`s. -/
def renderMsg (text : String) (m : Msg) : String :=
  let role := m.role.getD "user"
  let content := m.content.getD ""
  if role = "system" then text ++ "<|system|>\n" ++ content ++ "\n"
  else if role = "user" then text ++ "<|user|>\n" ++ content ++ "\n"
  else if role = "assistant" then text ++ "<|assistant|>\n" ++ content ++ "\n"
  else text

/-- The flat text built for one record (train.py:43-53). -/
def renderText (messages : List Msg) : String := messages.foldl renderMsg ""

/-- The example texts collected from the input lines, aborting on the
first malformed line (`json.loads` raises, propagating out of the
function); blank lines are skipped (train.py:38-54). -/
def collectExamples : List DatasetLine → Option (List String)
  | [] => some []
  | .blank :: rest => collectExamples rest
  | .malformed :: _ => none
  | .record msgs :: rest => (collectExamples rest).map (renderText msgs :: ·)

/-- `convert_jsonl_to_mlx_format` (train.py:35-71): returns
`(N, train partition, validation partition)`, or `none` when a
malformed line makes `json.loads` raise out of the function; the file
writes of the two partitions are modelled by returning them.
`int(len(examples) * 0.9)` is modelled as `len * 9 / 10`: the two
agree for every dataset size below 4.5e15 (the float `0.9` exceeds
9/10 by ~2.2e-17, far too little to push `N * 0.9` across an integer
boundary for feasible N). -/
def convert_jsonl_to_mlx_format (lines : List DatasetLine) :
    Option (ℕ × List String × List String) :=
  match collectExamples lines with
  | none => none
  | some examples =>
    let split_idx := max 1 (examples.length * 9 / 10)
    let train_data := examples.take split_idx
    let valid_data :=
      if split_idx < examples.length then examples.drop split_idx
      else pyTakeLast 1 examples
    some (examples.length, train_data, valid_data)

/-! ## Model-name resolution (train.py:153-188) -/

def model_mapping : List (String × String) :=
  [("llama3.2:3b", "mlx-community/Llama-3.2-3B-Instruct-4bit"),
   ("llama3.2:1b", "mlx-community/Llama-3.2-1B-Instruct-4bit"),
   ("llama3.1:8b", "mlx-community/Meta-Llama-3.1-8B-Instruct-4bit"),
   ("mistral:7b", "mlx-community/Mistral-7B-Instruct-v0.3-4bit"),
   ("qwen2.5:3b", "mlx-community/Qwen2.5-3B-Instruct-4bit"),
   ("qwen2.5:7b", "mlx-community/Qwen2.5-7B-Instruct-4bit")]

def custom_model_bases : List (String × String) :=
  [("luddo-expert", "llama3.2:3b"),
   ("luddo-expert:latest", "llama3.2:3b"),
   ("llama3.2-luddo-finetuned", "llama3.2:3b")]

/-- Resolution of the CLI base-model name to a HuggingFace model id
(train.py:171-188).  Note the source checks the custom-model keywords
against `args.base_model`, but builds the synthetic fallback name from
`resolved_model`. -/
def resolveHfModel (base_model : String) : String :=
  let resolved_model := (custom_model_bases.lookup base_model).getD base_model
  match model_mapping.lookup resolved_model with
  | some hf => hf
  | none =>
    let base_lower := pyLower base_model
    if pyIn "luddo" base_lower || pyIn "expert" base_lower ||
        pyIn "finetuned" base_lower then
      "mlx-community/Llama-3.2-3B-Instruct-4bit"
    else
      "mlx-community/" ++ pyTitle (pyReplaceColonDash resolved_model) ++ "-4bit"

/-! ## Config resolver (train.py:97-111) -/

/-- Merging the config file over the CLI arguments
(`args.x = config.get('X', args.x)`, train.py:101-107). -/
def mergeConfig (args : Args) (config : ConfigFile) : Args :=
  { base_model := config.baseModel.getD args.base_model
    dataset := config.dataset.getD args.dataset
    output := config.output.getD args.output
    epochs := config.epochs.getD args.epochs
    progress_file := config.progressFile.getD args.progress_file
    output_dir := config.outputDir.getD args.output_dir
    resume := config.resume.getD args.resume }

/-- `all([args.base_model, args.dataset, args.output,
args.progress_file, args.output_dir])` (train.py:110): Python
truthiness, so both `None` and `''` fail the check. -/
def argsValid (a : Args) : Bool :=
  pyTruthyStr a.base_model && pyTruthyStr a.dataset && pyTruthyStr a.output &&
    pyTruthyStr a.progress_file && pyTruthyStr a.output_dir


/-! ## Training supervisor: log scraping (train.py:400-458) -/

/-- `learning_rate: 1e-5` (train.py:440). -/
def lr1e5 : ℚ := mkRat 1 100000

/-- Exact value of Python `(a / b) * 65`-style true division of two
ints, as a rational (callers pre-multiply into `a`). -/
def ratOfDiv (a b : ℤ) : ℚ :=
  if 0 ≤ b then mkRat a b.toNat else -(mkRat a (-b).toNat)

/-- Configuration of the read loop: fixed values computed before it
starts (train.py:243-246, 398). -/
structure LoopCfg where
  resume_from_iter : ℤ
  epochs : ℤ
  iters_per_epoch : ℤ
  total_iters : ℤ
  dataset_size : ℕ
deriving DecidableEq

/-- Mutable state of the read loop: `current_iter` (train.py:398, 414)
and the `loss_history` accumulator (train.py:265, 427). -/
structure LoopState where
  current_iter : ℤ
  history : List LossEntry
deriving DecidableEq

/-- Events of the run trace: progress-file writes, checkpoint writes,
and the external-process invocations. -/
inductive Event
  | progress (s : Snapshot)
  | installMlx
  | launchTraining (remaining : ℤ) (resumeAdapter : Bool)
  | saveCheckpoint (c : CheckpointData)
  | runFuse
  | runConvert
  | writeModelfile (content : String)
  | runImport (model_source : String)
deriving DecidableEq

/-- Outcome of the per-line parse attempt (train.py:404-421):
`noSignal` — the `'Iter' in line and 'Train loss' in line` guard is
false; `failIter` — the `int(...)` on the iteration token raised
(before `current_iter` was assigned); `failLoss rel` — the iteration
parsed but `float(...)` on the loss raised (after `current_iter` was
assigned); `noLoss rel` — `train_loss` stayed `None`; `okLoss rel l` —
both parsed. -/
inductive ParseOut
  | noSignal
  | failIter
  | failLoss (rel : ℤ)
  | noLoss (rel : ℤ)
  | okLoss (rel : ℤ) (l : ℚ)
deriving DecidableEq

/-- The parsing protocol of one output line (train.py:404-421):
split on `','`, take the first segment, split it on `':'`, take the
first piece, whitespace-split it and `int(...)` its second token; then
`float(...)` of the stripped text after `'Train loss'` in the first
segment. -/
def parseSignal (line : String) : ParseOut :=
  if pyIn "Iter" line && pyIn "Train loss" line then
    let iter_loss_part := (pySplitL ",".data line.data).headI
    let iter_match := (pySplitL ":".data iter_loss_part).headI
    match (pyWsSplitL iter_match).get? 1 with
    | none => .failIter
    | some tok =>
      match pyInt ⟨tok⟩ with
      | none => .failIter
      | some rel =>
        if pyInL "Train loss".data iter_loss_part then
          match (pySplitL "Train loss".data iter_loss_part).get? 1 with
          | none => .failLoss rel
          | some rest =>
            match pyFloat ⟨pyStripL rest⟩ with
            | none => .failLoss rel
            | some l => .okLoss rel l
        else .noLoss rel
  else .noSignal

/-- The snapshot emitted for a successfully parsed progress line
(train.py:433-445). -/
def trainLoopSnapshot (cfg : LoopCfg) (current_iter current_epoch progress : ℤ)
    (train_loss : ℚ) (hist : List LossEntry) : Snapshot :=
  { stage := "training"
    progress := min progress 95
    message := "Training epoch " ++ toString current_epoch ++ "/" ++ toString cfg.epochs
    epoch := current_epoch
    total_epochs := cfg.epochs
    loss := some train_loss
    learning_rate := some lr1e5
    dataset_size := some cfg.dataset_size
    step := some current_iter
    total_steps := some cfg.total_iters
    loss_history := some (pyTakeLast 50 hist) }

/-- The checkpoint payload saved every 100th absolute iteration
(train.py:449-456).  Note the `[-100:]` truncation. -/
def mkCheckpointData (cfg : LoopCfg) (current_iter : ℤ) (train_loss : ℚ)
    (current_epoch : ℤ) (hist : List LossEntry) : CheckpointData :=
  { last_iter := current_iter
    last_loss := train_loss
    epoch := current_epoch
    loss_history := pyTakeLast 100 hist
    total_iters := cfg.total_iters
    dataset_size := cfg.dataset_size }

/-- The actions taken for a line whose parse fully succeeded with a
truthy loss (train.py:423-456): append to the history, emit the
training snapshot, and save a checkpoint when
`current_iter % 100 == 0`. -/
def successStep (cfg : LoopCfg) (st : LoopState) (rel : ℤ) (train_loss : ℚ) :
    LoopState × List Event :=
  let current_iter := cfg.resume_from_iter + rel
  let current_epoch := min cfg.epochs (Int.fdiv current_iter cfg.iters_per_epoch + 1)
  let progress := 30 + pyIntTrunc (ratOfDiv (current_iter * 65) cfg.total_iters)
  let hist := st.history ++ [⟨current_iter, train_loss, current_epoch⟩]
  let snap := trainLoopSnapshot cfg current_iter current_epoch progress train_loss hist
  ({ current_iter := current_iter, history := hist },
    Event.progress snap ::
      (if Int.emod current_iter 100 = 0 then
        [Event.saveCheckpoint (mkCheckpointData cfg current_iter train_loss current_epoch hist)]
      else []))

/-- Processing of one line of the external process's output
(train.py:400-458).  Every failure path is the `except ... pass`: the
state is returned unchanged except for the partial `current_iter`
assignment that Python had already executed.  A parsed loss of exactly
`0.0` fails the `if train_loss:` truthiness test.  A zero
`total_iters` would make train.py:425 raise `ZeroDivisionError` into
the same `except`; `main` never produces that configuration for a
running loop, but the model keeps the branch for fidelity. -/
def stepLine (cfg : LoopCfg) (st : LoopState) (line : String) : LoopState × List Event :=
  match parseSignal line with
  | .noSignal => (st, [])
  | .failIter => (st, [])
  | .failLoss rel => ({ st with current_iter := cfg.resume_from_iter + rel }, [])
  | .noLoss rel => ({ st with current_iter := cfg.resume_from_iter + rel }, [])
  | .okLoss rel l =>
    if l = 0 then ({ st with current_iter := cfg.resume_from_iter + rel }, [])
    else if cfg.total_iters = 0 then
      ({ st with current_iter := cfg.resume_from_iter + rel }, [])
    else successStep cfg st rel l

/-- The blocking read loop over the subprocess's output lines
(train.py:400). -/
def runLoop (cfg : LoopCfg) : LoopState → List String → LoopState × List Event
  | st, [] => (st, [])
  | st, line :: rest =>
    let step := stepLine cfg st line
    let next := runLoop cfg step.1 rest
    (next.1, step.2 ++ next.2)


/-! ## Pipeline environment and fixed snapshots -/

/-- Outcome of the GGUF-conversion section (train.py:504-539):
`raised` — the torch/transformers work raised before the conversion
subprocess ran; `scriptMissing` — the llama.cpp convert script is
absent; `convertFail` — the conversion subprocess exited non-zero;
`convertOk` — it succeeded. -/
inductive GgufOutcome
  | raised
  | scriptMissing
  | convertFail
  | convertOk
deriving DecidableEq

/-- Outcomes of everything external to the script: filesystem state
and the results of library imports and subprocesses.  `directStage`
abstracts how far the direct-training `try` block (train.py:269-351)
gets before its (inevitable) fall-through: `0` — an import raised
before the `progress 20` write, `1` — it raised after that write, `≥2`
— both the `progress 20` and `progress 25` writes happened. -/
structure Env where
  mlxInstalled : Bool
  checkpoint : Option CheckpointFile
  datasetLines : List DatasetLine
  directStage : ℕ
  trainLines : List String
  trainExit : ℤ
  adapterExists : Bool
  fuseOk : Bool
  gguf : GgufOutcome
  ggufFileExists : Bool
  importExit : ℤ
deriving DecidableEq

/-- `output_path = Path(args.output_dir) / args.output`
(train.py:201). -/
def outputPath (args : Args) : String :=
  args.output_dir.getD "" ++ "/" ++ args.output.getD ""

/-- `fused_path` (train.py:478). -/
def fusedPathOf (args : Args) : String := outputPath args ++ "/fused"

/-- `gguf_path` (train.py:502). -/
def ggufPathOf (args : Args) : String :=
  outputPath args ++ "/" ++ args.output.getD "" ++ ".gguf"

def initSnapshot (args : Args) : Snapshot :=
  { stage := "initializing", progress := 0, message := "Checking dependencies..."
    epoch := 0, total_epochs := args.epochs }

def installingSnapshot (args : Args) : Snapshot :=
  { stage := "installing", progress := 2, message := "Installing MLX-LM..."
    epoch := 0, total_epochs := args.epochs }

def loadingModelSnapshot5 (args : Args) : Snapshot :=
  { stage := "loading_model", progress := 5
    message := "Setting up for model: " ++ args.base_model.getD "" ++ "..."
    epoch := 0, total_epochs := args.epochs }

def preparingDataSnapshot (args : Args) : Snapshot :=
  { stage := "preparing_data", progress := 10, message := "Preparing training data..."
    epoch := 0, total_epochs := args.epochs }

/-- The `resuming` snapshot (train.py:217-226): written only when
`--resume` is set and the checkpoint file exists.  Written after the
`preparing_data` snapshot, with progress 5. -/
def resumingSnapshot (args : Args) (cp : CheckpointFile) : Snapshot :=
  { stage := "resuming", progress := 5
    message := "Resuming training from iteration " ++ toString (cp.last_iter.getD 0) ++ "..."
    epoch := cp.epoch.getD 1, total_epochs := args.epochs
    loss := cp.last_loss
    learning_rate := some lr1e5
    loss_history := some (pyTakeLast 50 (cp.loss_history.getD [])) }

def startingTrainingSnapshot (args : Args) (N : ℕ) : Snapshot :=
  { stage := "starting_training", progress := 15
    message := "Starting LoRA training on " ++ toString N ++ " examples..."
    epoch := 0, total_epochs := args.epochs, dataset_size := some N }

def loadingModelSnapshot20 (args : Args) (hf_model : String) (N : ℕ) : Snapshot :=
  { stage := "loading_model", progress := 20
    message := "Loading " ++ hf_model ++ "..."
    epoch := 0, total_epochs := args.epochs, dataset_size := some N }

def applyingLoraSnapshot (args : Args) (N : ℕ) : Snapshot :=
  { stage := "applying_lora", progress := 25, message := "Applying LoRA adapters..."
    epoch := 0, total_epochs := args.epochs, dataset_size := some N }

def trainingSnapshot30 (args : Args) (N : ℕ) : Snapshot :=
  { stage := "training", progress := 30, message := "Training with MLX LoRA..."
    epoch := 1, total_epochs := args.epochs, dataset_size := some N }

def fusingSnapshot (args : Args) (N : ℕ) (hist : List LossEntry) : Snapshot :=
  { stage := "fusing_model", progress := 96
    message := "Fusing adapters with base model..."
    epoch := args.epochs, total_epochs := args.epochs
    loss := (hist.getLast?).map LossEntry.loss
    dataset_size := some N, loss_history := some hist }

def convertingSnapshot (args : Args) (N : ℕ) (hist : List LossEntry) : Snapshot :=
  { stage := "converting_gguf", progress := 97
    message := "Converting model to GGUF format..."
    epoch := args.epochs, total_epochs := args.epochs
    loss := (hist.getLast?).map LossEntry.loss
    dataset_size := some N, loss_history := some hist }

def importingSnapshot (args : Args) (N : ℕ) (hist : List LossEntry) : Snapshot :=
  { stage := "importing_ollama", progress := 99
    message := "Importing model to Ollama..."
    epoch := args.epochs, total_epochs := args.epochs
    loss := (hist.getLast?).map LossEntry.loss
    dataset_size := some N, loss_history := some hist }

/-- The final snapshot of a successful run (train.py:593-606).  Note:
its fields do not depend on the GGUF-conversion outcome — `model_path`
is always the fused directory. -/
def completedSnapshot (args : Args) (N : ℕ) (hist : List LossEntry) : Snapshot :=
  { stage := "completed", progress := 100
    message := "Training complete! Model: " ++ args.output.getD ""
    epoch := args.epochs, total_epochs := args.epochs
    loss := (hist.getLast?).map LossEntry.loss
    final_loss := (hist.getLast?).map LossEntry.loss
    dataset_size := some N, loss_history := some hist
    model_path := some (fusedPathOf args)
    ollama_model := some (args.output.getD "") }

/-- The outer-boundary failure snapshot (train.py:614-623).  `msg`
stands for Python's `str(e)`; the `error` field there is
`str(e) + traceback`, modelled as `msg` alone. -/
def failedSnapshot (args : Args) (msg : String) : Snapshot :=
  { stage := "failed", progress := 0
    message := "Training failed: " ++ msg
    epoch := 0, total_epochs := args.epochs
    error := some msg }

/-- `str(e)` of the exception raised by `json.loads` on a malformed
dataset line (the concrete wording is library-internal). -/
def jsonErrorMsg : String := "Expecting value"

/-- `str(e)` of `Exception(f"Training failed with exit code ...")`
(train.py:463). -/
def trainFailMsg (code : ℤ) : String :=
  "Training failed with exit code " ++ toString code

/-- `str(e)` of the `CalledProcessError` from the fuse subprocess
(train.py:486); concrete wording is library-internal. -/
def fuseFailMsg : String := "mlx_lm fuse returned non-zero exit status"

/-! ## The pipeline (`main`, train.py:85-625) -/

/-- `resume_from_iter` (train.py:209-216): 0 unless `--resume` is set
and the checkpoint file loads. -/
def resumeIter (args : Args) (env : Env) : ℤ :=
  if args.resume then
    match env.checkpoint with
    | some cp => cp.last_iter.getD 0
    | none => 0
  else 0

/-- Trace prefix up to and including the resume handling
(train.py:115-226): the `initializing`, optional `installing`,
`loading_model` (5) and `preparing_data` snapshots, then the
`resuming` snapshot when applicable. -/
def preEvents (args : Args) (env : Env) : List Event :=
  [.progress (initSnapshot args)]
    ++ (if env.mlxInstalled then []
        else [.progress (installingSnapshot args), .installMlx])
    ++ [.progress (loadingModelSnapshot5 args), .progress (preparingDataSnapshot args)]
    ++ (if args.resume then
          match env.checkpoint with
          | some cp => [.progress (resumingSnapshot args cp)]
          | none => []
        else [])

/-- `iters_per_epoch = max(1, dataset_size // 4)` (train.py:245). -/
def iters_per_epoch_of (N : ℕ) : ℤ := max 1 (Int.fdiv (N : ℤ) 4)

/-- `total_iters = iters_per_epoch * args.epochs` (train.py:246). -/
def total_iters_of (args : Args) (N : ℕ) : ℤ := iters_per_epoch_of N * args.epochs

def mkLoopCfg (args : Args) (env : Env) (N : ℕ) : LoopCfg :=
  { resume_from_iter := resumeIter args env
    epochs := args.epochs
    iters_per_epoch := iters_per_epoch_of N
    total_iters := total_iters_of args N
    dataset_size := N }

/-- Snapshots written inside the direct-training `try` block
(train.py:275-298) before it falls through to the CLI approach. -/
def directEvents (args : Args) (env : Env) (hf_model : String) (N : ℕ) : List Event :=
  (if 1 ≤ env.directStage then [.progress (loadingModelSnapshot20 args hf_model N)] else [])
    ++ (if 2 ≤ env.directStage then [.progress (applyingLoraSnapshot args N)] else [])

/-- The Ollama Modelfile contents (train.py:555-570). -/
def modelfileContent (model_source : String) : String :=
  "FROM " ++ model_source ++
    "\n\nSYSTEM \"\"\"You are an expert Luddo game AI, fine-tuned with LoRA on winning game decisions.\n\nRULES:\n- Roll 6 to exit yard, capture or reach home = bonus turn\n- Safe spots: Start (0,13,26,39) and Stars (8,21,34,47)\n- 56 steps to home (51-55 = home stretch)\n\nPRIORITIES: Capture > Escape threat > Home stretch > Advance\n\nRespond: TOKEN: [0-3] and REASONING: [explanation]\"\"\"\n\nPARAMETER temperature 0.5\nPARAMETER num_ctx 4096\n"

/-- The `gguf_path` variable after the conversion section
(train.py:504-539): set only when the conversion subprocess succeeded,
`None` on every failure path. -/
def ggufPathResult (args : Args) (env : Env) : Option String :=
  match env.gguf with
  | .convertOk => some (ggufPathOf args)
  | _ => none

/-- The conversion subprocess runs exactly when the script exists and
nothing raised before it (train.py:521-528). -/
def convertEvents (env : Env) : List Event :=
  match env.gguf with
  | .raised => []
  | .scriptMissing => []
  | .convertFail => [.runConvert]
  | .convertOk => [.runConvert]

/-- The post-processing chain (train.py:465-609): fuse (fatal on
failure), GGUF conversion (never fatal), Modelfile write and
Ollama import (exit code only warned about), final `completed` snapshot.
`model_source` prefers the GGUF file when it exists (train.py:554). -/
def postChain (args : Args) (env : Env) (N : ℕ) (hist : List LossEntry) :
    List Event × ℤ :=
  let fusing := Event.progress (fusingSnapshot args N hist)
  if env.fuseOk then
    let model_source :=
      match ggufPathResult args env with
      | some p => if env.ggufFileExists then p else fusedPathOf args
      | none => fusedPathOf args
    ([fusing, .runFuse, .progress (convertingSnapshot args N hist)]
        ++ convertEvents env
        ++ [.progress (importingSnapshot args N hist),
            .writeModelfile (modelfileContent model_source),
            .runImport model_source,
            .progress (completedSnapshot args N hist)],
      0)
  else
    ([fusing, .runFuse, .progress (failedSnapshot args fuseFailMsg)], 1)

/-- The run from the `starting_training` snapshot on
(train.py:232-609), given the dataset size: compute the iteration
counts, skip training when `remaining_iters <= 0` (train.py:367-370),
otherwise launch the subprocess with the loop starting from
`current_iter = resume_from_iter` and `loss_history = []`
(train.py:265, 398), fail when its exit code is non-zero
(train.py:462-463), then run the post-processing chain. -/
def afterData (args : Args) (env : Env) (hf_model : String) (N : ℕ) :
    List Event × ℤ :=
  let cfg := mkLoopCfg args env N
  let mid := Event.progress (startingTrainingSnapshot args N) ::
    directEvents args env hf_model N ++ [Event.progress (trainingSnapshot30 args N)]
  let remaining_iters := cfg.total_iters - cfg.resume_from_iter
  if remaining_iters ≤ 0 then
    let post := postChain args env N []
    (mid ++ post.1, post.2)
  else
    let launch := Event.launchTraining remaining_iters
      (decide (0 < cfg.resume_from_iter) && env.adapterExists)
    let loop := runLoop cfg ⟨cfg.resume_from_iter, []⟩ env.trainLines
    if env.trainExit = 0 then
      let post := postChain args env N loop.1.history
      (mid ++ launch :: loop.2 ++ post.1, post.2)
    else
      (mid ++ launch :: loop.2 ++
          [Event.progress (failedSnapshot args (trainFailMsg env.trainExit))],
        1)

/-- The whole `try` body of `main` (train.py:115-625) for validated
arguments, as a trace of events plus the process exit code. -/
def mainRun (args : Args) (env : Env) : List Event × ℤ :=
  let pre := preEvents args env
  match convert_jsonl_to_mlx_format env.datasetLines with
  | none => (pre ++ [Event.progress (failedSnapshot args jsonErrorMsg)], 1)
  | some res =>
    let rest := afterData args env (resolveHfModel (args.base_model.getD "")) res.1
    (pre ++ rest.1, rest.2)

/-- `main` including config merging and validation (train.py:97-113):
`parser.error` exits with code 2 before any progress write. -/
def run (args : Args) (config : Option ConfigFile) (env : Env) : List Event × ℤ :=
  let a := match config with | some c => mergeConfig args c | none => args
  if argsValid a then mainRun a env else ([], 2)

/-! ## Observation helpers for the claims -/

def snapshotsOf (evs : List Event) : List Snapshot :=
  evs.filterMap fun e => match e with | .progress s => some s | _ => none

def progressList (evs : List Event) : List ℤ := (snapshotsOf evs).map Snapshot.progress

/-- The relative iteration of a line that the loop turns into a
snapshot (full parse success and truthy loss). -/
def parsedRel (line : String) : Option ℤ :=
  match parseSignal line with
  | .okLoss rel l => if l = 0 then none else some rel
  | _ => none

/-- The rendered texts of the record lines (what `collectExamples`
yields when no line is malformed). -/
def recordTexts (lines : List DatasetLine) : List String :=
  lines.filterMap fun l =>
    match l with | .record msgs => some (renderText msgs) | _ => none

abbrev noMalformed (lines : List DatasetLine) : Prop := DatasetLine.malformed ∉ lines

/-- Concrete arguments for a resume run (used by several witnesses). -/
def argsResume : Args where
  base_model := some "llama3.2:3b"
  dataset := some "data.jsonl"
  output := some "luddo-expert"
  epochs := 3
  progress_file := some "progress.json"
  output_dir := some "out"
  resume := true

/-- A checkpoint on disk with `last_iter = 50`. -/
def cp50 : CheckpointFile where
  last_iter := some 50
  last_loss := some 1
  epoch := some 2
  loss_history := some []

/-- Environment of a resume run whose checkpoint already covers the
whole iteration budget. -/
def envResume : Env where
  mlxInstalled := true
  checkpoint := some cp50
  datasetLines := [.record []]
  directStage := 0
  trainLines := []
  trainExit := 0
  adapterExists := false
  fuseOk := true
  gguf := .scriptMissing
  ggufFileExists := false
  importExit := 0


/-! ## Shared lemmas -/

theorem collectExamples_eq (lines : List DatasetLine) (hM : noMalformed lines) :
    collectExamples lines = some (recordTexts lines) := by
  induction lines with
  | nil => rfl
  | cons hd tl ih =>
    have htl : noMalformed tl := by
      intro h
      exact hM (List.mem_cons_of_mem _ h)
    cases hd with
    | blank =>
      simp only [collectExamples]
      rw [ih htl]
      simp [recordTexts, List.filterMap_cons]
    | malformed => exact absurd (List.mem_cons_self _ _) hM
    | record msgs =>
      simp only [collectExamples]
      rw [ih htl]
      simp [recordTexts, List.filterMap_cons]

/-- Closed form of the dataset transformer on a well-formed input. -/
theorem convert_eq (lines : List DatasetLine) (hM : noMalformed lines) :
    convert_jsonl_to_mlx_format lines =
      some ((recordTexts lines).length,
        (recordTexts lines).take (max 1 ((recordTexts lines).length * 9 / 10)),
        if max 1 ((recordTexts lines).length * 9 / 10) < (recordTexts lines).length then
          (recordTexts lines).drop (max 1 ((recordTexts lines).length * 9 / 10))
        else pyTakeLast 1 (recordTexts lines)) := by
  unfold convert_jsonl_to_mlx_format
  rw [collectExamples_eq lines hM]

/-- C1: for a dataset of `N ≥ 1` well-formed non-blank lines the
transformer splits the ordered examples at `max(1, ⌊0.9·N⌋)`: the
train partition is the first `max(1, ⌊0.9·N⌋)` examples; the
validation partition is the remainder or, when that is empty, the
one-element list holding the last training example; validation is
never empty; and the function returns `N`. -/
theorem C1_dataset_split (lines : List DatasetLine) (hM : noMalformed lines)
    (hN : 1 ≤ (recordTexts lines).length) :
    ∃ T V : List String,
      convert_jsonl_to_mlx_format lines = some ((recordTexts lines).length, T, V) ∧
      T = (recordTexts lines).take (max 1 ((recordTexts lines).length * 9 / 10)) ∧
      ((max 1 ((recordTexts lines).length * 9 / 10) < (recordTexts lines).length ∧
          V = (recordTexts lines).drop (max 1 ((recordTexts lines).length * 9 / 10))) ∨
        ((recordTexts lines).length ≤ max 1 ((recordTexts lines).length * 9 / 10) ∧
          V = pyTakeLast 1 T ∧ V.length = 1)) ∧
      V ≠ [] := by
  have hconv := convert_eq lines hM
  by_cases h : max 1 ((recordTexts lines).length * 9 / 10) < (recordTexts lines).length
  · rw [if_pos h] at hconv
    refine ⟨_, _, hconv, rfl, Or.inl ⟨h, rfl⟩, ?_⟩
    intro hnil
    have hlen := congrArg List.length hnil
    simp at hlen
    omega
  · rw [if_neg h] at hconv
    have hge : (recordTexts lines).length ≤ max 1 ((recordTexts lines).length * 9 / 10) :=
      Nat.le_of_not_lt h
    have htake : (recordTexts lines).take (max 1 ((recordTexts lines).length * 9 / 10)) =
        recordTexts lines := List.take_of_length_le hge
    have hlen1 : (pyTakeLast 1 (recordTexts lines)).length = 1 := by
      unfold pyTakeLast
      simp
      omega
    refine ⟨_, _, hconv, rfl, Or.inr ⟨hge, by rw [htake], hlen1⟩, ?_⟩
    intro hnil
    rw [hnil] at hlen1
    simp at hlen1

/-- Witness for C1 at the spec's own scenario: 10 examples split 9/1. -/
theorem C1_dataset_split_witness :
    noMalformed (List.replicate 10 (DatasetLine.record [])) ∧
      (∃ T V : List String,
        convert_jsonl_to_mlx_format (List.replicate 10 (DatasetLine.record [])) =
          some ((recordTexts (List.replicate 10 (DatasetLine.record []))).length, T, V) ∧
        T = (recordTexts (List.replicate 10 (DatasetLine.record []))).take
            (max 1 ((recordTexts (List.replicate 10 (DatasetLine.record []))).length * 9 / 10)) ∧
        ((max 1 ((recordTexts (List.replicate 10 (DatasetLine.record []))).length * 9 / 10) <
            (recordTexts (List.replicate 10 (DatasetLine.record []))).length ∧
            V = (recordTexts (List.replicate 10 (DatasetLine.record []))).drop
              (max 1 ((recordTexts (List.replicate 10 (DatasetLine.record []))).length * 9 / 10))) ∨
          ((recordTexts (List.replicate 10 (DatasetLine.record []))).length ≤
              max 1 ((recordTexts (List.replicate 10 (DatasetLine.record []))).length * 9 / 10) ∧
            V = pyTakeLast 1 T ∧ V.length = 1)) ∧
        V ≠ []) :=
  ⟨by decide, C1_dataset_split (List.replicate 10 (DatasetLine.record [])) (by decide) (by decide)⟩

/-- A line on which the parse attempt raises (and the `except` at
train.py:457 swallows it): the guard held but `int(...)` or
`float(...)` failed. -/
def parseFailed (line : String) : Bool :=
  match parseSignal line with
  | .failIter => true
  | .failLoss _ => true
  | _ => false

/-- C3: a line whose parse fails at any point is swallowed: the step
produces no events (nothing raises, nothing is written), the recorded
loss history is exactly the previous one, and the loop continues with
the remaining lines. -/
theorem C3_parse_failure_swallowed (cfg : LoopCfg) (st : LoopState) (line : String)
    (h : parseFailed line = true) :
    (stepLine cfg st line).1.history = st.history ∧
    (stepLine cfg st line).2 = [] ∧
    ∀ rest : List String,
      (runLoop cfg st (line :: rest)).2 = (runLoop cfg (stepLine cfg st line).1 rest).2 := by
  unfold parseFailed at h
  cases hp : parseSignal line with
  | noSignal =>
    rw [hp] at h
    simp at h
  | failIter => refine ⟨?_, ?_, ?_⟩ <;> simp [stepLine, runLoop, hp]
  | failLoss rel => refine ⟨?_, ?_, ?_⟩ <;> simp [stepLine, runLoop, hp]
  | noLoss rel =>
    rw [hp] at h
    simp at h
  | okLoss rel l =>
    rw [hp] at h
    simp at h

/-- Witness for C3: `int('abc')` raises, the history (here nonempty)
is untouched and no event is emitted. -/
theorem C3_parse_failure_swallowed_witness :
    parseFailed "Iter abc: Train loss 0.5" = true ∧
      ((stepLine ⟨0, 3, 2, 6, 8⟩ ⟨0, [⟨1, 1, 1⟩]⟩ "Iter abc: Train loss 0.5").1.history =
          [⟨1, 1, 1⟩] ∧
        (stepLine ⟨0, 3, 2, 6, 8⟩ ⟨0, [⟨1, 1, 1⟩]⟩ "Iter abc: Train loss 0.5").2 = [] ∧
        ∀ rest : List String,
          (runLoop ⟨0, 3, 2, 6, 8⟩ ⟨0, [⟨1, 1, 1⟩]⟩ ("Iter abc: Train loss 0.5" :: rest)).2 =
            (runLoop ⟨0, 3, 2, 6, 8⟩
              (stepLine ⟨0, 3, 2, 6, 8⟩ ⟨0, [⟨1, 1, 1⟩]⟩ "Iter abc: Train loss 0.5").1 rest).2) :=
  ⟨by decide, C3_parse_failure_swallowed ⟨0, 3, 2, 6, 8⟩ ⟨0, [⟨1, 1, 1⟩]⟩ _ (by decide)⟩

/-- C9: a line that parses with train loss exactly `0.0` is dropped by
the `if train_loss:` truthiness test: no history entry, no snapshot,
no checkpoint — only the already-executed `current_iter` assignment
remains. -/
theorem C9_zero_loss_dropped (cfg : LoopCfg) (st : LoopState) (line : String) (rel : ℤ)
    (h : parseSignal line = .okLoss rel 0) :
    (stepLine cfg st line).1.history = st.history ∧
    (stepLine cfg st line).1.current_iter = cfg.resume_from_iter + rel ∧
    (stepLine cfg st line).2 = [] := by
  simp [stepLine, h]

/-- Witness for C9 on the line `Iter 7: Train loss 0.0`. -/
theorem C9_zero_loss_dropped_witness :
    parseSignal "Iter 7: Train loss 0.0" = .okLoss 7 0 ∧
      ((stepLine ⟨0, 3, 2, 6, 8⟩ ⟨0, [⟨1, 1, 1⟩]⟩ "Iter 7: Train loss 0.0").1.history =
          [⟨1, 1, 1⟩] ∧
        (stepLine ⟨0, 3, 2, 6, 8⟩ ⟨0, [⟨1, 1, 1⟩]⟩ "Iter 7: Train loss 0.0").1.current_iter =
          0 + 7 ∧
        (stepLine ⟨0, 3, 2, 6, 8⟩ ⟨0, [⟨1, 1, 1⟩]⟩ "Iter 7: Train loss 0.0").2 = []) :=
  ⟨by decide, C9_zero_loss_dropped ⟨0, 3, 2, 6, 8⟩ ⟨0, [⟨1, 1, 1⟩]⟩ _ 7 (by decide)⟩

/-- C5: for every successfully parsed progress line with truthy loss,
processed while the training loop can actually be running (checkpoint
offset `resume_from_iter ≥ 0` and `remaining_iters > 0`) and with
absolute iteration `i = resume_from_iter + rel ≥ 0`, the recorded
epoch is `min(total_epochs, i // iters_per_epoch + 1)` with
`iters_per_epoch = max(1, dataset_size // 4)`, and it satisfies
`1 ≤ epoch ≤ total_epochs`; the snapshot and any checkpoint written
for the line record that same epoch. -/
theorem C5_epoch_bounds (args : Args) (env : Env) (N : ℕ) (st : LoopState)
    (line : String) (rel : ℤ) (l : ℚ)
    (hp : parseSignal line = .okLoss rel l) (hl : l ≠ 0)
    (hres : 0 ≤ resumeIter args env)
    (hrem : 0 < total_iters_of args N - resumeIter args env)
    (hi : 0 ≤ resumeIter args env + rel) :
    (stepLine (mkLoopCfg args env N) st line).1.history =
      st.history ++ [⟨resumeIter args env + rel, l,
        min args.epochs (Int.fdiv (resumeIter args env + rel) (iters_per_epoch_of N) + 1)⟩] ∧
    1 ≤ min args.epochs (Int.fdiv (resumeIter args env + rel) (iters_per_epoch_of N) + 1) ∧
    min args.epochs (Int.fdiv (resumeIter args env + rel) (iters_per_epoch_of N) + 1) ≤
      args.epochs ∧
    (∀ s, Event.progress s ∈ (stepLine (mkLoopCfg args env N) st line).2 →
      s.epoch =
        min args.epochs (Int.fdiv (resumeIter args env + rel) (iters_per_epoch_of N) + 1)) ∧
    (∀ c, Event.saveCheckpoint c ∈ (stepLine (mkLoopCfg args env N) st line).2 →
      c.epoch =
        min args.epochs (Int.fdiv (resumeIter args env + rel) (iters_per_epoch_of N) + 1)) := by
  have hipe : (1 : ℤ) ≤ iters_per_epoch_of N := le_max_left 1 _
  have hT : 0 < total_iters_of args N := lt_of_le_of_lt hres (by omega)
  have he : (1 : ℤ) ≤ args.epochs := by
    by_contra hcon
    push_neg at hcon
    have : total_iters_of args N ≤ 0 := by
      unfold total_iters_of
      have h0 : args.epochs ≤ 0 := by omega
      exact mul_nonpos_of_nonneg_of_nonpos (by omega) h0
    omega
  have hfd : 0 ≤ Int.fdiv (resumeIter args env + rel) (iters_per_epoch_of N) :=
    Int.fdiv_nonneg hi (by omega)
  have hTne : total_iters_of args N ≠ 0 := ne_of_gt hT
  simp only [stepLine, hp, if_neg hl]
  rw [if_neg (by simpa [mkLoopCfg] using hTne)]
  unfold successStep
  refine ⟨by simp [mkLoopCfg], le_min he (by omega), min_le_left _ _, ?_, ?_⟩
  · intro s hs
    rcases List.mem_cons.mp hs with h1 | h1
    · injection h1 with h2
      subst h2
      simp [trainLoopSnapshot, mkLoopCfg]
    · revert h1
      split
      · intro h1
        simp at h1
      · intro h1
        simp at h1
  · intro c hc
    rcases List.mem_cons.mp hc with h1 | h1
    · simp at h1
    · revert h1
      split
      · intro h1
        simp only [List.mem_singleton, Event.saveCheckpoint.injEq] at h1
        subst h1
        simp [mkCheckpointData, mkLoopCfg]
      · intro h1
        simp at h1

/-- Concrete arguments for a fresh (non-resume) run. -/
def argsFresh : Args where
  base_model := some "llama3.2:3b"
  dataset := some "data.jsonl"
  output := some "luddo-expert"
  epochs := 3
  progress_file := some "progress.json"
  output_dir := some "out"
  resume := false

/-- Environment of a fresh successful run over an 8-example dataset
with two scraped progress lines; GGUF conversion fails. -/
def envFresh : Env where
  mlxInstalled := true
  checkpoint := none
  datasetLines := List.replicate 8 (.record [])
  directStage := 2
  trainLines := ["Iter 1: Train loss 0.5", "Iter 2: Train loss 0.4"]
  trainExit := 0
  adapterExists := false
  fuseOk := true
  gguf := .convertFail
  ggufFileExists := false
  importExit := 0

/-- Environment identical to `envFresh` except that the training
subprocess emits its iteration lines out of order (iteration 5 before
iteration 2).  Nothing in the scraping loop (train.py:404-458) enforces
an order on them. -/
def envOutOfOrder : Env :=
  { envFresh with trainLines := ["Iter 5: Train loss 0.5", "Iter 2: Train loss 0.4"] }

/-- Witness for C5: `Iter 2: Train loss 0.5` in a fresh 3-epoch run
over 8 examples records epoch `min(3, 2 // 2 + 1) = 2`. -/
theorem C5_epoch_bounds_witness :
    parseSignal "Iter 2: Train loss 0.5" = .okLoss 2 (mkRat 1 2) ∧
      ((stepLine (mkLoopCfg argsFresh envFresh 8) ⟨0, []⟩ "Iter 2: Train loss 0.5").1.history =
          [] ++ [⟨resumeIter argsFresh envFresh + 2, mkRat 1 2,
            min argsFresh.epochs
              (Int.fdiv (resumeIter argsFresh envFresh + 2) (iters_per_epoch_of 8) + 1)⟩] ∧
        1 ≤ min argsFresh.epochs
            (Int.fdiv (resumeIter argsFresh envFresh + 2) (iters_per_epoch_of 8) + 1) ∧
        min argsFresh.epochs
            (Int.fdiv (resumeIter argsFresh envFresh + 2) (iters_per_epoch_of 8) + 1) ≤
          argsFresh.epochs ∧
        (∀ s, Event.progress s ∈
            (stepLine (mkLoopCfg argsFresh envFresh 8) ⟨0, []⟩ "Iter 2: Train loss 0.5").2 →
          s.epoch = min argsFresh.epochs
            (Int.fdiv (resumeIter argsFresh envFresh + 2) (iters_per_epoch_of 8) + 1)) ∧
        (∀ c, Event.saveCheckpoint c ∈
            (stepLine (mkLoopCfg argsFresh envFresh 8) ⟨0, []⟩ "Iter 2: Train loss 0.5").2 →
          c.epoch = min argsFresh.epochs
            (Int.fdiv (resumeIter argsFresh envFresh + 2) (iters_per_epoch_of 8) + 1))) :=
  ⟨by decide,
    C5_epoch_bounds argsFresh envFresh 8 ⟨0, []⟩ "Iter 2: Train loss 0.5" 2 (mkRat 1 2)
      (by decide) (by decide) (by decide) (by decide) (by decide)⟩

/-- C7: every field the config file defines (even as `null`) overrides
the CLI value, fields absent from the config fall back to the CLI
value, and if any of the five required fields is still unset after
merging, the program exits with the argparse configuration error
(code 2) before writing anything. -/
theorem C7_config_resolution (args : Args) (cfg : ConfigFile) :
    (∀ v, cfg.baseModel = some v → (mergeConfig args cfg).base_model = v) ∧
    (cfg.baseModel = none → (mergeConfig args cfg).base_model = args.base_model) ∧
    (∀ v, cfg.dataset = some v → (mergeConfig args cfg).dataset = v) ∧
    (cfg.dataset = none → (mergeConfig args cfg).dataset = args.dataset) ∧
    (∀ v, cfg.output = some v → (mergeConfig args cfg).output = v) ∧
    (cfg.output = none → (mergeConfig args cfg).output = args.output) ∧
    (∀ v, cfg.epochs = some v → (mergeConfig args cfg).epochs = v) ∧
    (cfg.epochs = none → (mergeConfig args cfg).epochs = args.epochs) ∧
    (∀ v, cfg.progressFile = some v → (mergeConfig args cfg).progress_file = v) ∧
    (cfg.progressFile = none → (mergeConfig args cfg).progress_file = args.progress_file) ∧
    (∀ v, cfg.outputDir = some v → (mergeConfig args cfg).output_dir = v) ∧
    (cfg.outputDir = none → (mergeConfig args cfg).output_dir = args.output_dir) ∧
    (∀ v, cfg.resume = some v → (mergeConfig args cfg).resume = v) ∧
    (cfg.resume = none → (mergeConfig args cfg).resume = args.resume) ∧
    (∀ env : Env,
      ((mergeConfig args cfg).base_model = none ∨ (mergeConfig args cfg).dataset = none ∨
        (mergeConfig args cfg).output = none ∨ (mergeConfig args cfg).progress_file = none ∨
        (mergeConfig args cfg).output_dir = none) →
      run args (some cfg) env = ([], 2)) := by
  refine ⟨fun v hv => by simp [mergeConfig, hv], fun hv => by simp [mergeConfig, hv],
    fun v hv => by simp [mergeConfig, hv], fun hv => by simp [mergeConfig, hv],
    fun v hv => by simp [mergeConfig, hv], fun hv => by simp [mergeConfig, hv],
    fun v hv => by simp [mergeConfig, hv], fun hv => by simp [mergeConfig, hv],
    fun v hv => by simp [mergeConfig, hv], fun hv => by simp [mergeConfig, hv],
    fun v hv => by simp [mergeConfig, hv], fun hv => by simp [mergeConfig, hv],
    fun v hv => by simp [mergeConfig, hv], fun hv => by simp [mergeConfig, hv], ?_⟩
  intro env hnone
  have hbad : argsValid (mergeConfig args cfg) = false := by
    unfold argsValid
    rcases hnone with h | h | h | h | h <;> simp [h, pyTruthyStr]
  simp [run, hbad]

/-- CLI arguments that lack `--dataset`. -/
def argsNoDataset : Args where
  base_model := some "llama3.2:3b"
  dataset := none
  output := some "luddo-expert"
  epochs := 3
  progress_file := some "progress.json"
  output_dir := some "out"
  resume := false

/-- A config file that overrides the base model and the epochs but
defines no dataset. -/
def cfgOverride : ConfigFile where
  baseModel := some (some "qwen2.5:3b")
  dataset := none
  output := none
  epochs := some 5
  progressFile := none
  outputDir := none
  resume := some true

/-- Witness for C7: a defined field overrides, an absent one falls
back, and a run whose merged arguments still lack `dataset` exits
with code 2 and an empty trace. -/
theorem C7_config_resolution_witness :
    (mergeConfig argsNoDataset cfgOverride).base_model = some "qwen2.5:3b" ∧
      (mergeConfig argsNoDataset cfgOverride).output = argsNoDataset.output ∧
      run argsNoDataset (some cfgOverride) envFresh = ([], 2) :=
  ⟨(C7_config_resolution argsNoDataset cfgOverride).1 (some "qwen2.5:3b") rfl,
    (C7_config_resolution argsNoDataset cfgOverride).2.2.2.2.2.1 rfl,
    (C7_config_resolution argsNoDataset
        cfgOverride).2.2.2.2.2.2.2.2.2.2.2.2.2.2 envFresh
      (Or.inr (Or.inl (by decide)))⟩

theorem stepLine_history_isPrefix (cfg : LoopCfg) (st : LoopState) (line : String) :
    st.history <+: (stepLine cfg st line).1.history := by
  unfold stepLine
  cases hp : parseSignal line with
  | noSignal => exact List.prefix_refl _
  | failIter => exact List.prefix_refl _
  | failLoss rel => exact List.prefix_refl _
  | noLoss rel => exact List.prefix_refl _
  | okLoss rel l =>
    by_cases hl : l = 0
    · simp [hl]
    · by_cases hT : cfg.total_iters = 0
      · simp [hl, hT]
      · simp [hl, hT, successStep]

theorem runLoop_history_isPrefix (cfg : LoopCfg) :
    ∀ (lines : List String) (st : LoopState),
      st.history <+: (runLoop cfg st lines).1.history := by
  intro lines
  induction lines with
  | nil => intro st; exact List.prefix_refl _
  | cons l rest ih =>
    intro st
    exact (stepLine_history_isPrefix cfg st l).trans (ih (stepLine cfg st l).1)

/-- C6 (amended): the loss history is append-only within a run; the
training snapshots and the resuming snapshot write the most recent 50
entries; but checkpoint files keep the most recent **100** entries,
and the post-training snapshots (fusing, converting, importing,
completed) write the **full untruncated** history. -/
theorem C6_history_truncation_amended :
    (∀ (cfg : LoopCfg) (lines : List String) (st : LoopState),
      st.history <+: (runLoop cfg st lines).1.history) ∧
    (∀ (cfg : LoopCfg) (i ep pr : ℤ) (l : ℚ) (hist : List LossEntry),
      (trainLoopSnapshot cfg i ep pr l hist).loss_history = some (pyTakeLast 50 hist)) ∧
    (∀ (args : Args) (cp : CheckpointFile),
      (resumingSnapshot args cp).loss_history =
        some (pyTakeLast 50 (cp.loss_history.getD []))) ∧
    (∀ (cfg : LoopCfg) (i : ℤ) (l : ℚ) (ep : ℤ) (hist : List LossEntry),
      (mkCheckpointData cfg i l ep hist).loss_history = pyTakeLast 100 hist) ∧
    (∀ (args : Args) (N : ℕ) (hist : List LossEntry),
      (fusingSnapshot args N hist).loss_history = some hist ∧
      (convertingSnapshot args N hist).loss_history = some hist ∧
      (importingSnapshot args N hist).loss_history = some hist ∧
      (completedSnapshot args N hist).loss_history = some hist) :=
  ⟨fun cfg lines st => runLoop_history_isPrefix cfg lines st,
    fun _ _ _ _ _ _ => rfl, fun _ _ => rfl, fun _ _ _ _ _ => rfl,
    fun _ _ _ => ⟨rfl, rfl, rfl, rfl⟩⟩

/-- Counterexample to C6 as stated: a checkpoint written with 60
accumulated entries stores all 60 of them (`loss_history[-100:]`,
train.py:453), not the claimed most-recent 50. -/
theorem C6_counterexample :
    ¬ ((mkCheckpointData ⟨0, 3, 100, 300, 400⟩ 100 1 1
        (List.replicate 60 ⟨1, 1, 1⟩)).loss_history.length ≤ 50) := by decide

theorem preEvents_no_launch (args : Args) (env : Env) (r : ℤ) (b : Bool) :
    Event.launchTraining r b ∉ preEvents args env := by
  unfold preEvents
  cases hc : env.checkpoint with
  | none =>
    by_cases hm : env.mlxInstalled <;> by_cases hra : args.resume <;> simp [hm, hra]
  | some cp' =>
    by_cases hm : env.mlxInstalled <;> by_cases hra : args.resume <;> simp [hm, hra]

theorem directEvents_no_launch (args : Args) (env : Env) (hf : String) (N : ℕ)
    (r : ℤ) (b : Bool) : Event.launchTraining r b ∉ directEvents args env hf N := by
  unfold directEvents
  by_cases h1 : 1 ≤ env.directStage <;> by_cases h2 : 2 ≤ env.directStage <;>
    simp [h1, h2]

theorem postChain_no_launch (args : Args) (env : Env) (N : ℕ) (hist : List LossEntry)
    (r : ℤ) (b : Bool) : Event.launchTraining r b ∉ (postChain args env N hist).1 := by
  unfold postChain
  by_cases hfu : env.fuseOk <;> cases hg : env.gguf <;> simp [hfu, hg, convertEvents]

/-- Both branches of the post-processing chain start with the fusing
snapshot followed by the fuse subprocess. -/
theorem postChain_head (args : Args) (env : Env) (N : ℕ) (hist : List LossEntry) :
    ∃ rest, (postChain args env N hist).1 =
      Event.progress (fusingSnapshot args N hist) :: Event.runFuse :: rest := by
  unfold postChain
  by_cases hfu : env.fuseOk
  · rw [if_pos hfu]
    exact ⟨_, rfl⟩
  · rw [if_neg hfu]
    exact ⟨_, rfl⟩

/-- Shape of the run tail when `remaining_iters <= 0`
(train.py:367-370): no subprocess launch, no read loop, straight into
the post-processing chain with the (reset, empty) loss history. -/
theorem afterData_skip (args : Args) (env : Env) (hf : String) (N : ℕ)
    (hle : total_iters_of args N - resumeIter args env ≤ 0) :
    afterData args env hf N =
      ((Event.progress (startingTrainingSnapshot args N) ::
          directEvents args env hf N ++ [Event.progress (trainingSnapshot30 args N)]) ++
          (postChain args env N []).1,
        (postChain args env N []).2) := by
  simp only [afterData, mkLoopCfg]
  rw [if_pos hle]

/-- C4: resuming with a checkpoint whose `last_iter` already covers
the iteration budget (`total_iters - last_iter ≤ 0`) skips the
training phase: no training subprocess is launched, no read loop runs,
and right after the fixed `training` snapshot the trace continues with
the post-processing chain (fusing snapshot, fuse, then
convert/import). -/
theorem C4_resume_skips_training (args : Args) (env : Env) (cp : CheckpointFile)
    (hr : args.resume = true) (hcp : env.checkpoint = some cp)
    (hM : noMalformed env.datasetLines)
    (hle : total_iters_of args (recordTexts env.datasetLines).length -
        cp.last_iter.getD 0 ≤ 0) :
    (mainRun args env).1 =
      preEvents args env ++
        ((Event.progress
            (startingTrainingSnapshot args (recordTexts env.datasetLines).length) ::
          directEvents args env (resolveHfModel (args.base_model.getD ""))
            (recordTexts env.datasetLines).length ++
          [Event.progress (trainingSnapshot30 args (recordTexts env.datasetLines).length)]) ++
        (postChain args env (recordTexts env.datasetLines).length []).1) ∧
    (mainRun args env).2 = (postChain args env (recordTexts env.datasetLines).length []).2 ∧
    (∃ rest, (postChain args env (recordTexts env.datasetLines).length []).1 =
      Event.progress (fusingSnapshot args (recordTexts env.datasetLines).length []) ::
        Event.runFuse :: rest) ∧
    (∀ r b, Event.launchTraining r b ∉ (mainRun args env).1) := by
  have hres : resumeIter args env = cp.last_iter.getD 0 := by
    simp [resumeIter, hr, hcp]
  have hconv := convert_eq env.datasetLines hM
  have hskip := afterData_skip args env (resolveHfModel (args.base_model.getD ""))
    (recordTexts env.datasetLines).length (by rw [hres]; exact hle)
  have hmain : mainRun args env =
      (preEvents args env ++
        ((Event.progress
            (startingTrainingSnapshot args (recordTexts env.datasetLines).length) ::
          directEvents args env (resolveHfModel (args.base_model.getD ""))
            (recordTexts env.datasetLines).length ++
          [Event.progress (trainingSnapshot30 args (recordTexts env.datasetLines).length)]) ++
        (postChain args env (recordTexts env.datasetLines).length []).1),
        (postChain args env (recordTexts env.datasetLines).length []).2) := by
    unfold mainRun
    rw [hconv]
    simp only
    rw [hskip]
  refine ⟨by rw [hmain], by rw [hmain], postChain_head _ _ _ _, ?_⟩
  intro r b hmem
  rw [hmain] at hmem
  simp only at hmem
  rcases List.mem_append.mp hmem with h | h
  · exact preEvents_no_launch args env r b h
  · rcases List.mem_append.mp h with h2 | h2
    · rcases List.mem_cons.mp h2 with h3 | h3
      · simp at h3
      · rcases List.mem_append.mp h3 with h4 | h4
        · exact directEvents_no_launch args env _ _ r b h4
        · simp at h4
    · exact postChain_no_launch args env _ [] r b h2

/-- Witness for C4: the `envResume` fixture (checkpoint `last_iter =
50`, budget 3 iterations) skips training. -/
theorem C4_resume_skips_training_witness :
    noMalformed envResume.datasetLines ∧
      ((mainRun argsResume envResume).1 =
        preEvents argsResume envResume ++
          ((Event.progress
              (startingTrainingSnapshot argsResume
                (recordTexts envResume.datasetLines).length) ::
            directEvents argsResume envResume
              (resolveHfModel (argsResume.base_model.getD ""))
              (recordTexts envResume.datasetLines).length ++
            [Event.progress
              (trainingSnapshot30 argsResume (recordTexts envResume.datasetLines).length)]) ++
          (postChain argsResume envResume (recordTexts envResume.datasetLines).length []).1) ∧
      (mainRun argsResume envResume).2 =
        (postChain argsResume envResume (recordTexts envResume.datasetLines).length []).2 ∧
      (∃ rest,
        (postChain argsResume envResume (recordTexts envResume.datasetLines).length []).1 =
          Event.progress
              (fusingSnapshot argsResume (recordTexts envResume.datasetLines).length []) ::
            Event.runFuse :: rest) ∧
      (∀ r b, Event.launchTraining r b ∉ (mainRun argsResume envResume).1)) :=
  ⟨by decide,
    C4_resume_skips_training argsResume envResume cp50 rfl rfl (by decide) (by decide)⟩

/-- Every step either produces no events at all, or is the
full success path. -/
theorem stepLine_cases (cfg : LoopCfg) (st : LoopState) (line : String) :
    (stepLine cfg st line).2 = [] ∨
    ∃ rel l, parseSignal line = .okLoss rel l ∧ l ≠ 0 ∧ cfg.total_iters ≠ 0 ∧
      stepLine cfg st line = successStep cfg st rel l := by
  unfold stepLine
  cases hp : parseSignal line with
  | noSignal => exact Or.inl rfl
  | failIter => exact Or.inl rfl
  | failLoss rel => exact Or.inl rfl
  | noLoss rel => exact Or.inl rfl
  | okLoss rel l =>
    by_cases hl : l = 0
    · exact Or.inl (by simp [hl])
    · by_cases hT : cfg.total_iters = 0
      · exact Or.inl (by simp [hl, hT])
      · exact Or.inr ⟨rel, l, rfl, hl, hT, by simp [hl, hT]⟩

theorem stepLine_events_entries (cfg : LoopCfg) (st : LoopState) (line : String) :
    (∀ s, Event.progress s ∈ (stepLine cfg st line).2 → ∀ L, s.loss_history = some L →
      ∀ e ∈ L, e ∈ (stepLine cfg st line).1.history) ∧
    (∀ c, Event.saveCheckpoint c ∈ (stepLine cfg st line).2 →
      ∀ e ∈ c.loss_history, e ∈ (stepLine cfg st line).1.history) := by
  rcases stepLine_cases cfg st line with hemp | ⟨rel, l, hp, hl, hT, hstep⟩
  · rw [hemp]
    exact ⟨fun s hs => absurd hs (List.not_mem_nil _),
      fun c hc => absurd hc (List.not_mem_nil _)⟩
  · rw [hstep]
    unfold successStep
    constructor
    · intro s hs L hL e he
      rcases List.mem_cons.mp hs with h1 | h1
      · injection h1 with h2
        subst h2
        simp only [trainLoopSnapshot, Option.some.injEq] at hL
        subst hL
        exact List.mem_of_mem_drop he
      · revert h1
        split
        · intro h1
          simp at h1
        · intro h1
          simp at h1
    · intro c hc e he
      rcases List.mem_cons.mp hc with h1 | h1
      · simp at h1
      · revert h1
        split
        · intro h1
          simp only [List.mem_singleton, Event.saveCheckpoint.injEq] at h1
          subst h1
          exact List.mem_of_mem_drop he
        · intro h1
          simp at h1

theorem runLoop_events_entries (cfg : LoopCfg) :
    ∀ (lines : List String) (st : LoopState),
      (∀ s, Event.progress s ∈ (runLoop cfg st lines).2 → ∀ L, s.loss_history = some L →
        ∀ e ∈ L, e ∈ (runLoop cfg st lines).1.history) ∧
      (∀ c, Event.saveCheckpoint c ∈ (runLoop cfg st lines).2 →
        ∀ e ∈ c.loss_history, e ∈ (runLoop cfg st lines).1.history) := by
  intro lines
  induction lines with
  | nil =>
    intro st
    exact ⟨fun s hs => absurd hs (List.not_mem_nil _),
      fun c hc => absurd hc (List.not_mem_nil _)⟩
  | cons line rest ih =>
    intro st
    have hpre : (stepLine cfg st line).1.history <+:
        (runLoop cfg (stepLine cfg st line).1 rest).1.history :=
      runLoop_history_isPrefix cfg rest (stepLine cfg st line).1
    constructor
    · intro s hs L hL e he
      rcases List.mem_append.mp hs with h1 | h1
      · exact hpre.subset ((stepLine_events_entries cfg st line).1 s h1 L hL e he)
      · exact ((ih (stepLine cfg st line).1).1 s h1 L hL e he)
    · intro c hc e he
      rcases List.mem_append.mp hc with h1 | h1
      · exact hpre.subset ((stepLine_events_entries cfg st line).2 c h1 e he)
      · exact ((ih (stepLine cfg st line).1).2 c h1 e he)

/-- Equation for `mainRun` when the dataset conversion raises. -/
theorem mainRun_none (args : Args) (env : Env)
    (h : convert_jsonl_to_mlx_format env.datasetLines = none) :
    mainRun args env =
      (preEvents args env ++ [Event.progress (failedSnapshot args jsonErrorMsg)], 1) := by
  unfold mainRun
  rw [h]

/-- Equation for `mainRun` when the dataset conversion succeeds. -/
theorem mainRun_some (args : Args) (env : Env) (N : ℕ) (T V : List String)
    (h : convert_jsonl_to_mlx_format env.datasetLines = some (N, T, V)) :
    mainRun args env =
      (preEvents args env ++
          (afterData args env (resolveHfModel (args.base_model.getD "")) N).1,
        (afterData args env (resolveHfModel (args.base_model.getD "")) N).2) := by
  unfold mainRun
  rw [h]

/-- C10: the loss history stored in the checkpoint is discarded before
the training loop (train.py:265 reassigns `loss_history = []`): two
runs resuming from checkpoints that differ only in their stored
`loss_history` produce identical traces after the resume prefix and
identical exit codes (the stored history reaches only the `resuming`
snapshot); and every snapshot or checkpoint the loop writes — started,
as in `main`, from the empty history — contains only entries the
current run itself recorded. -/
theorem C10_resume_discards_history (args : Args) (env : Env) (cp : CheckpointFile)
    (H H' : Option (List LossEntry)) (hr : args.resume = true) :
    ((mainRun args { env with checkpoint := some { cp with loss_history := H } }).2 =
      (mainRun args { env with checkpoint := some { cp with loss_history := H' } }).2) ∧
    (List.drop
        (preEvents args { env with checkpoint := some { cp with loss_history := H } }).length
        (mainRun args { env with checkpoint := some { cp with loss_history := H } }).1 =
      List.drop
        (preEvents args { env with checkpoint := some { cp with loss_history := H' } }).length
        (mainRun args { env with checkpoint := some { cp with loss_history := H' } }).1) ∧
    (∀ (cfg : LoopCfg) (lines : List String) (s : Snapshot) (L : List LossEntry),
      Event.progress s ∈ (runLoop cfg ⟨cfg.resume_from_iter, []⟩ lines).2 →
      s.loss_history = some L →
      ∀ e ∈ L, e ∈ (runLoop cfg ⟨cfg.resume_from_iter, []⟩ lines).1.history) ∧
    (∀ (cfg : LoopCfg) (lines : List String) (c : CheckpointData),
      Event.saveCheckpoint c ∈ (runLoop cfg ⟨cfg.resume_from_iter, []⟩ lines).2 →
      ∀ e ∈ c.loss_history, e ∈ (runLoop cfg ⟨cfg.resume_from_iter, []⟩ lines).1.history) := by
  have hAD : ∀ hf N,
      afterData args { env with checkpoint := some { cp with loss_history := H } } hf N =
        afterData args { env with checkpoint := some { cp with loss_history := H' } } hf N :=
    fun hf N => rfl
  refine ⟨?_, ?_,
    fun cfg lines s L hs hL e he => (runLoop_events_entries cfg lines _).1 s hs L hL e he,
    fun cfg lines c hc e he => (runLoop_events_entries cfg lines _).2 c hc e he⟩
  · cases hconv : convert_jsonl_to_mlx_format env.datasetLines with
    | none =>
      rw [mainRun_none args { env with checkpoint := some { cp with loss_history := H } } hconv,
        mainRun_none args { env with checkpoint := some { cp with loss_history := H' } } hconv]
    | some res =>
      obtain ⟨N, T, V⟩ := res
      rw [mainRun_some args { env with checkpoint := some { cp with loss_history := H } } N T V hconv,
        mainRun_some args { env with checkpoint := some { cp with loss_history := H' } } N T V hconv]
      have h2 := congrArg Prod.snd (hAD (resolveHfModel (args.base_model.getD "")) N)
      exact h2
  · cases hconv : convert_jsonl_to_mlx_format env.datasetLines with
    | none =>
      rw [mainRun_none args { env with checkpoint := some { cp with loss_history := H } } hconv,
        mainRun_none args { env with checkpoint := some { cp with loss_history := H' } } hconv]
      rw [List.drop_left, List.drop_left]
    | some res =>
      obtain ⟨N, T, V⟩ := res
      rw [mainRun_some args { env with checkpoint := some { cp with loss_history := H } } N T V hconv,
        mainRun_some args { env with checkpoint := some { cp with loss_history := H' } } N T V hconv]
      rw [List.drop_left, List.drop_left]
      have h1 := congrArg Prod.fst (hAD (resolveHfModel (args.base_model.getD "")) N)
      exact h1

/-- Witness for C10 at concrete inputs: stored histories
`[⟨1, 1, 1⟩]` versus `none`. -/
theorem C10_resume_discards_history_witness :
    argsResume.resume = true ∧
      (((mainRun argsResume
          { envResume with checkpoint := some { cp50 with loss_history := some [⟨1, 1, 1⟩] } }).2 =
        (mainRun argsResume
          { envResume with checkpoint := some { cp50 with loss_history := none } }).2) ∧
      (List.drop
          (preEvents argsResume
            { envResume with
              checkpoint := some { cp50 with loss_history := some [⟨1, 1, 1⟩] } }).length
          (mainRun argsResume
            { envResume with
              checkpoint := some { cp50 with loss_history := some [⟨1, 1, 1⟩] } }).1 =
        List.drop
          (preEvents argsResume
            { envResume with checkpoint := some { cp50 with loss_history := none } }).length
          (mainRun argsResume
            { envResume with checkpoint := some { cp50 with loss_history := none } }).1) ∧
      (∀ (cfg : LoopCfg) (lines : List String) (s : Snapshot) (L : List LossEntry),
        Event.progress s ∈ (runLoop cfg ⟨cfg.resume_from_iter, []⟩ lines).2 →
        s.loss_history = some L →
        ∀ e ∈ L, e ∈ (runLoop cfg ⟨cfg.resume_from_iter, []⟩ lines).1.history) ∧
      (∀ (cfg : LoopCfg) (lines : List String) (c : CheckpointData),
        Event.saveCheckpoint c ∈ (runLoop cfg ⟨cfg.resume_from_iter, []⟩ lines).2 →
        ∀ e ∈ c.loss_history, e ∈ (runLoop cfg ⟨cfg.resume_from_iter, []⟩ lines).1.history)) :=
  ⟨rfl, C10_resume_discards_history argsResume envResume cp50 (some [⟨1, 1, 1⟩]) none rfl⟩

theorem getLast?_append_some {α : Type} {l2 : List α} {x : α} (l1 : List α)
    (h : l2.getLast? = some x) : (l1 ++ l2).getLast? = some x := by
  rw [List.getLast?_append, h]
  rfl

theorem getLast?_singleton {α : Type} (x : α) : ([x] : List α).getLast? = some x := rfl

theorem getLast?_cons_some {α : Type} {l : List α} {x : α} (a : α)
    (h : l.getLast? = some x) : (a :: l).getLast? = some x := by
  cases l with
  | nil => cases h
  | cons b t => rw [List.getLast?_cons_cons, h]

/-- The loss history `main` holds when it reaches the post-processing
chain: empty when training was skipped, otherwise the loop's final
accumulator (train.py:265, 367-460). -/
def runHistory (args : Args) (env : Env) (N : ℕ) : List LossEntry :=
  if total_iters_of args N - resumeIter args env ≤ 0 then []
  else (runLoop (mkLoopCfg args env N) ⟨resumeIter args env, []⟩ env.trainLines).1.history

/-- Shape of the run tail when the training subprocess runs and exits
cleanly. -/
theorem afterData_run (args : Args) (env : Env) (hf : String) (N : ℕ)
    (hgt : ¬ total_iters_of args N - resumeIter args env ≤ 0)
    (hT : env.trainExit = 0) :
    afterData args env hf N =
      ((Event.progress (startingTrainingSnapshot args N) ::
          directEvents args env hf N ++ [Event.progress (trainingSnapshot30 args N)]) ++
        Event.launchTraining (total_iters_of args N - resumeIter args env)
            (decide (0 < resumeIter args env) && env.adapterExists) ::
          (runLoop (mkLoopCfg args env N) ⟨resumeIter args env, []⟩ env.trainLines).2 ++
          (postChain args env N
            (runLoop (mkLoopCfg args env N) ⟨resumeIter args env, []⟩
              env.trainLines).1.history).1,
        (postChain args env N
          (runLoop (mkLoopCfg args env N) ⟨resumeIter args env, []⟩
            env.trainLines).1.history).2) := by
  simp only [afterData, mkLoopCfg]
  rw [if_neg hgt, if_pos hT]

/-- Under a successful fuse, the post-processing chain exits 0 and its
event list ends with the `completed` snapshot. -/
theorem postChain_last (args : Args) (env : Env) (N : ℕ) (hist : List LossEntry)
    (hF : env.fuseOk = true) :
    (postChain args env N hist).2 = 0 ∧
    ∃ C, (postChain args env N hist).1 =
      C ++ [Event.progress (completedSnapshot args N hist)] := by
  unfold postChain
  rw [if_pos hF]
  refine ⟨rfl, ⟨[Event.progress (fusingSnapshot args N hist), Event.runFuse,
    Event.progress (convertingSnapshot args N hist)] ++ convertEvents env ++
    [Event.progress (importingSnapshot args N hist),
      Event.writeModelfile (modelfileContent
        (match ggufPathResult args env with
          | some p => if env.ggufFileExists then p else fusedPathOf args
          | none => fusedPathOf args)),
      Event.runImport
        (match ggufPathResult args env with
          | some p => if env.ggufFileExists then p else fusedPathOf args
          | none => fusedPathOf args)], ?_⟩⟩
  simp [List.append_assoc]

/-- When the GGUF conversion produced nothing, the Ollama import falls
back to the fused model directory. -/
theorem postChain_import_fused (args : Args) (env : Env) (N : ℕ)
    (hist : List LossEntry) (hF : env.fuseOk = true)
    (hng : ggufPathResult args env = none) :
    Event.runImport (fusedPathOf args) ∈ (postChain args env N hist).1 := by
  unfold postChain
  rw [if_pos hF, hng]
  simp

/-- A run that gets through training (or skips it) and fuses
successfully exits 0, ends with the `completed` snapshot carrying
`runHistory`, and contains every event of the post-processing chain. -/
theorem mainRun_success (args : Args) (env : Env)
    (hM : noMalformed env.datasetLines) (hT : env.trainExit = 0)
    (hF : env.fuseOk = true) :
    (mainRun args env).2 = 0 ∧
    (mainRun args env).1.getLast? =
      some (Event.progress (completedSnapshot args (recordTexts env.datasetLines).length
        (runHistory args env (recordTexts env.datasetLines).length))) ∧
    (∀ e ∈ (postChain args env (recordTexts env.datasetLines).length
        (runHistory args env (recordTexts env.datasetLines).length)).1,
      e ∈ (mainRun args env).1) := by
  have hconv := convert_eq env.datasetLines hM
  have hmain := mainRun_some args env (recordTexts env.datasetLines).length _ _ hconv
  obtain ⟨hexit, C, hC⟩ := postChain_last args env (recordTexts env.datasetLines).length
    (runHistory args env (recordTexts env.datasetLines).length) hF
  by_cases hskip : total_iters_of args (recordTexts env.datasetLines).length -
      resumeIter args env ≤ 0
  · have hAD := afterData_skip args env (resolveHfModel (args.base_model.getD ""))
      (recordTexts env.datasetLines).length hskip
    have hh : runHistory args env (recordTexts env.datasetLines).length = [] := by
      unfold runHistory
      rw [if_pos hskip]
    rw [hh] at hC hexit ⊢
    rw [hmain, hAD]
    refine ⟨?_, ?_, ?_⟩
    · exact hexit
    · show List.getLast? (_ ++ _) = _
      rw [hC]
      repeat
        first
          | exact getLast?_singleton _
          | apply getLast?_append_some
          | apply getLast?_cons_some
    · intro e he
      simp only [List.mem_append, List.mem_cons]
      tauto
  · have hAD := afterData_run args env (resolveHfModel (args.base_model.getD ""))
      (recordTexts env.datasetLines).length hskip hT
    have hh : runHistory args env (recordTexts env.datasetLines).length =
        (runLoop (mkLoopCfg args env (recordTexts env.datasetLines).length)
          ⟨resumeIter args env, []⟩ env.trainLines).1.history := by
      unfold runHistory
      rw [if_neg hskip]
    rw [hh] at hC hexit ⊢
    rw [hmain, hAD]
    refine ⟨?_, ?_, ?_⟩
    · exact hexit
    · show List.getLast? (_ ++ _) = _
      rw [hC]
      repeat
        first
          | exact getLast?_singleton _
          | apply getLast?_append_some
          | apply getLast?_cons_some
    · intro e he
      simp only [List.mem_append, List.mem_cons]
      tauto

/-- C8 (amended): when the format-conversion step fails in any of its
three ways (torch/transformers raised, convert script missing,
conversion subprocess non-zero), the pipeline does not fail: it then
imports the fused (unconverted) model directly, exits 0, and the final
snapshot has stage `completed` — but the degraded outcome is *not*
surfaced: the final snapshot (message included) is identical to the
one written when conversion succeeds. -/
theorem C8_conversion_fallback_amended (args : Args) (env : Env)
    (hM : noMalformed env.datasetLines) (hT : env.trainExit = 0) (hF : env.fuseOk = true)
    (hG : env.gguf = .raised ∨ env.gguf = .scriptMissing ∨ env.gguf = .convertFail) :
    (mainRun args env).2 = 0 ∧
    Event.runImport (fusedPathOf args) ∈ (mainRun args env).1 ∧
    (mainRun args env).1.getLast? =
      some (Event.progress (completedSnapshot args (recordTexts env.datasetLines).length
        (runHistory args env (recordTexts env.datasetLines).length))) ∧
    (completedSnapshot args (recordTexts env.datasetLines).length
        (runHistory args env (recordTexts env.datasetLines).length)).stage = "completed" ∧
    (mainRun args env).1.getLast? =
      (mainRun args { env with gguf := .convertOk, ggufFileExists := true }).1.getLast? := by
  have hng : ggufPathResult args env = none := by
    rcases hG with h | h | h <;> simp [ggufPathResult, h]
  obtain ⟨hexit, hlast, hsub⟩ := mainRun_success args env hM hT hF
  obtain ⟨hexit2, hlast2, hsub2⟩ := mainRun_success args
    { env with gguf := .convertOk, ggufFileExists := true } hM hT hF
  refine ⟨hexit, hsub _ (postChain_import_fused args env _ _ hF hng), hlast, rfl, ?_⟩
  rw [hlast, hlast2]
  rfl

/-- Counterexample to C8 as stated: with the conversion subprocess
failing (`envFresh`) the run still succeeds, and its final snapshot is
byte-for-byte identical — message included — to the final snapshot of
the run whose conversion succeeded, so the degraded outcome is not
surfaced in the final ProgressSnapshot. -/
theorem C8_counterexample :
    (mainRun argsFresh envFresh).2 = 0 ∧
    envFresh.gguf = GgufOutcome.convertFail ∧
    (mainRun argsFresh envFresh).1.getLast? =
      (mainRun argsFresh { envFresh with gguf := .convertOk, ggufFileExists := true }).1.getLast? := by
  decide

/-- Witness for C8 (amended) on the `envFresh` fixture. -/
theorem C8_conversion_fallback_amended_witness :
    noMalformed envFresh.datasetLines ∧
      ((mainRun argsFresh envFresh).2 = 0 ∧
      Event.runImport (fusedPathOf argsFresh) ∈ (mainRun argsFresh envFresh).1 ∧
      (mainRun argsFresh envFresh).1.getLast? =
        some (Event.progress
          (completedSnapshot argsFresh (recordTexts envFresh.datasetLines).length
            (runHistory argsFresh envFresh (recordTexts envFresh.datasetLines).length))) ∧
      (completedSnapshot argsFresh (recordTexts envFresh.datasetLines).length
          (runHistory argsFresh envFresh (recordTexts envFresh.datasetLines).length)).stage =
        "completed" ∧
      (mainRun argsFresh envFresh).1.getLast? =
        (mainRun argsFresh
          { envFresh with gguf := .convertOk, ggufFileExists := true }).1.getLast?) :=
  ⟨by decide,
    C8_conversion_fallback_amended argsFresh envFresh (by decide) (by decide) (by decide)
      (Or.inr (Or.inr (by decide)))⟩

/-- The progress value a parsed line with relative iteration `r`
produces (train.py:425, 435). -/
def trainProgressOf (cfg : LoopCfg) (r : ℤ) : ℤ :=
  min (30 + pyIntTrunc (ratOfDiv ((cfg.resume_from_iter + r) * 65) cfg.total_iters)) 95

/-- Per-line dichotomy linking the step to `parsedRel` (for a loop
whose `total_iters` is non-zero): either no events and no parsed
iteration, or the full success path. -/
theorem stepLine_parsed (cfg : LoopCfg) (st : LoopState) (line : String)
    (hT : cfg.total_iters ≠ 0) :
    ((stepLine cfg st line).2 = [] ∧ parsedRel line = none) ∨
    (∃ rel l, parseSignal line = .okLoss rel l ∧ l ≠ 0 ∧ parsedRel line = some rel ∧
      stepLine cfg st line = successStep cfg st rel l) := by
  cases hp : parseSignal line with
  | noSignal => exact Or.inl ⟨by simp [stepLine, hp], by simp [parsedRel, hp]⟩
  | failIter => exact Or.inl ⟨by simp [stepLine, hp], by simp [parsedRel, hp]⟩
  | failLoss rel => exact Or.inl ⟨by simp [stepLine, hp], by simp [parsedRel, hp]⟩
  | noLoss rel => exact Or.inl ⟨by simp [stepLine, hp], by simp [parsedRel, hp]⟩
  | okLoss rel l =>
    by_cases hl : l = 0
    · exact Or.inl ⟨by simp [stepLine, hp, hl], by simp [parsedRel, hp, hl]⟩
    · exact Or.inr ⟨rel, l, rfl, hl, by simp [parsedRel, hp, hl],
        by simp [stepLine, hp, hl, hT]⟩

/-- The single snapshot a successful step emits. -/
theorem successStep_snapshots (cfg : LoopCfg) (st : LoopState) (rel : ℤ) (l : ℚ) :
    snapshotsOf (successStep cfg st rel l).2 =
      [trainLoopSnapshot cfg (cfg.resume_from_iter + rel)
        (min cfg.epochs (Int.fdiv (cfg.resume_from_iter + rel) cfg.iters_per_epoch + 1))
        (30 + pyIntTrunc (ratOfDiv ((cfg.resume_from_iter + rel) * 65) cfg.total_iters)) l
        (st.history ++ [⟨cfg.resume_from_iter + rel, l,
          min cfg.epochs (Int.fdiv (cfg.resume_from_iter + rel) cfg.iters_per_epoch + 1)⟩])] := by
  unfold successStep
  by_cases hmod : Int.emod (cfg.resume_from_iter + rel) 100 = 0 <;>
    simp [hmod, snapshotsOf]

/-- The loop's progress values are exactly the images of the parsed
relative iterations. -/
theorem runLoop_progress (cfg : LoopCfg) (hT : cfg.total_iters ≠ 0) :
    ∀ (lines : List String) (st : LoopState),
      progressList (runLoop cfg st lines).2 =
        (lines.filterMap parsedRel).map (trainProgressOf cfg) := by
  intro lines
  induction lines with
  | nil => intro st; rfl
  | cons line rest ih =>
    intro st
    have happ : progressList (runLoop cfg st (line :: rest)).2 =
        progressList (stepLine cfg st line).2 ++
          progressList (runLoop cfg (stepLine cfg st line).1 rest).2 := by
      show progressList ((stepLine cfg st line).2 ++ _) = _
      simp [progressList, snapshotsOf, List.filterMap_append]
    rw [happ]
    rcases stepLine_parsed cfg st line hT with ⟨he, hp⟩ | ⟨rel, l, hps, hl, hp, hs⟩
    · rw [he, List.filterMap_cons, hp, ih (stepLine cfg st line).1]
      rfl
    · rw [hs, List.filterMap_cons, hp, List.map_cons,
        ih (successStep cfg st rel l).1]
      have hone : progressList (successStep cfg st rel l).2 = [trainProgressOf cfg rel] := by
        simp [progressList, successStep_snapshots, trainLoopSnapshot, trainProgressOf]
      rw [hone]
      rfl

/-- Every loop snapshot has stage `training` and the progress of one
of the parsed lines. -/
theorem runLoop_stages (cfg : LoopCfg) (hT : cfg.total_iters ≠ 0) :
    ∀ (lines : List String) (st : LoopState) (s : Snapshot),
      s ∈ snapshotsOf (runLoop cfg st lines).2 →
      s.stage = "training" ∧
        ∃ r ∈ lines.filterMap parsedRel, s.progress = trainProgressOf cfg r := by
  intro lines
  induction lines with
  | nil => intro st s hs; exact absurd hs (List.not_mem_nil _)
  | cons line rest ih =>
    intro st s hs
    have happ : snapshotsOf (runLoop cfg st (line :: rest)).2 =
        snapshotsOf (stepLine cfg st line).2 ++
          snapshotsOf (runLoop cfg (stepLine cfg st line).1 rest).2 := by
      show snapshotsOf ((stepLine cfg st line).2 ++ _) = _
      simp [snapshotsOf, List.filterMap_append]
    rw [happ] at hs
    rcases stepLine_parsed cfg st line hT with ⟨he, hp⟩ | ⟨rel, l, hps, hl, hp, hstep⟩
    · rw [he] at hs
      simp only [snapshotsOf, List.filterMap_nil, List.nil_append] at hs
      obtain ⟨hst, r, hr, hpr⟩ := ih (stepLine cfg st line).1 s hs
      exact ⟨hst, r, by rw [List.filterMap_cons, hp]; exact hr, hpr⟩
    · rcases List.mem_append.mp hs with h1 | h1
      · rw [hstep, successStep_snapshots] at h1
        rcases List.mem_singleton.mp h1 with rfl
        refine ⟨rfl, rel, ?_, ?_⟩
        · rw [List.filterMap_cons, hp]
          exact List.mem_cons_self _ _
        · simp [trainLoopSnapshot, trainProgressOf]
      · obtain ⟨hst, r, hr, hpr⟩ := ih (stepLine cfg st line).1 s h1
        exact ⟨hst, r, by rw [List.filterMap_cons, hp]; exact List.mem_cons_of_mem _ hr, hpr⟩

theorem pyIntTrunc_eq_floor {q : ℚ} (h : 0 ≤ q) : pyIntTrunc q = ⌊q⌋ := by
  unfold pyIntTrunc
  rw [Rat.floor_def]
  exact Int.tdiv_eq_ediv (Rat.num_nonneg.mpr h) (Int.natCast_nonneg _)

theorem pyIntTrunc_nonneg {q : ℚ} (h : 0 ≤ q) : 0 ≤ pyIntTrunc q :=
  Int.tdiv_nonneg (Rat.num_nonneg.mpr h) (Int.natCast_nonneg _)

theorem pyIntTrunc_mono {a b : ℚ} (ha : 0 ≤ a) (hab : a ≤ b) :
    pyIntTrunc a ≤ pyIntTrunc b := by
  rw [pyIntTrunc_eq_floor ha, pyIntTrunc_eq_floor (ha.trans hab)]
  exact Int.floor_le_floor hab

theorem ratOfDiv_nonneg {a b : ℤ} (ha : 0 ≤ a) (hb : 0 ≤ b) : 0 ≤ ratOfDiv a b := by
  unfold ratOfDiv
  rw [if_pos hb]
  exact Rat.mkRat_nonneg ha _

theorem ratOfDiv_mono {a a' b : ℤ} (hb : 0 < b) (h : a ≤ a') :
    ratOfDiv a b ≤ ratOfDiv a' b := by
  unfold ratOfDiv
  rw [if_pos hb.le, if_pos hb.le, Rat.mkRat_eq_div, Rat.mkRat_eq_div]
  have hbn : (0 : ℚ) < (b.toNat : ℚ) := by
    have h1 : 0 < b.toNat := by omega
    exact_mod_cast h1
  exact (div_le_div_right hbn).mpr (by exact_mod_cast h)

theorem trainProgressOf_bounds (cfg : LoopCfg) (r : ℤ)
    (hr0 : 0 ≤ cfg.resume_from_iter + r) (hT : 0 < cfg.total_iters) :
    30 ≤ trainProgressOf cfg r ∧ trainProgressOf cfg r ≤ 95 := by
  unfold trainProgressOf
  constructor
  · have hnn := pyIntTrunc_nonneg
      (ratOfDiv_nonneg (mul_nonneg hr0 (by norm_num : (0:ℤ) ≤ 65)) hT.le)
    apply le_min (by omega) (by norm_num)
  · exact min_le_right _ _

theorem trainProgressOf_mono (cfg : LoopCfg) {r r' : ℤ}
    (hr0 : 0 ≤ cfg.resume_from_iter + r) (hT : 0 < cfg.total_iters) (h : r ≤ r') :
    trainProgressOf cfg r ≤ trainProgressOf cfg r' := by
  unfold trainProgressOf
  apply min_le_min _ le_rfl
  have hmono := pyIntTrunc_mono
    (ratOfDiv_nonneg (mul_nonneg hr0 (by norm_num : (0:ℤ) ≤ 65)) hT.le)
    (ratOfDiv_mono hT (mul_le_mul_of_nonneg_right
      (by omega : cfg.resume_from_iter + r ≤ cfg.resume_from_iter + r')
      (by norm_num : (0:ℤ) ≤ 65)))
  omega

theorem sorted_map_trainProgress (cfg : LoopCfg) (hT : 0 < cfg.total_iters)
    (hres : cfg.resume_from_iter = 0) (rs : List ℤ)
    (hs : List.Sorted (· ≤ ·) rs) (hnn : ∀ r ∈ rs, 0 ≤ r) :
    List.Sorted (· ≤ ·) (rs.map (trainProgressOf cfg)) := by
  rw [List.Sorted, List.pairwise_map]
  exact List.Pairwise.imp_of_mem
    (fun ha _ hab => trainProgressOf_mono cfg
      (by rw [hres, zero_add]; exact hnn _ ha) hT hab) hs

theorem snapshotsOf_preEvents (args : Args) (env : Env) (h1 : args.resume = false) :
    snapshotsOf (preEvents args env) =
      [initSnapshot args] ++
        (if env.mlxInstalled then [] else [installingSnapshot args]) ++
        [loadingModelSnapshot5 args, preparingDataSnapshot args] := by
  by_cases hm : env.mlxInstalled <;> simp [preEvents, snapshotsOf, h1, hm]

theorem snapshotsOf_directEvents (args : Args) (env : Env) (hf : String) (N : ℕ) :
    snapshotsOf (directEvents args env hf N) =
      (if 1 ≤ env.directStage then [loadingModelSnapshot20 args hf N] else []) ++
        (if 2 ≤ env.directStage then [applyingLoraSnapshot args N] else []) := by
  by_cases hd1 : 1 ≤ env.directStage <;> by_cases hd2 : 2 ≤ env.directStage <;>
    simp [directEvents, snapshotsOf, hd1, hd2]

theorem snapshotsOf_postChain (args : Args) (env : Env) (N : ℕ)
    (hist : List LossEntry) (hF : env.fuseOk = true) :
    snapshotsOf (postChain args env N hist).1 =
      [fusingSnapshot args N hist, convertingSnapshot args N hist,
        importingSnapshot args N hist, completedSnapshot args N hist] := by
  unfold postChain
  rw [if_pos hF]
  cases hg : env.gguf <;> simp [snapshotsOf, convertEvents, hg]

theorem postChain_fail_exit (args : Args) (env : Env) (N : ℕ) (hist : List LossEntry)
    (hF : env.fuseOk = false) : (postChain args env N hist).2 = 1 := by
  unfold postChain
  rw [if_neg (by simp [hF])]

theorem snapshotsOf_append (a b : List Event) :
    snapshotsOf (a ++ b) = snapshotsOf a ++ snapshotsOf b := by
  simp [snapshotsOf, List.filterMap_append]

theorem snapshotsOf_nil : snapshotsOf [] = [] := rfl

theorem snapshotsOf_cons_progress (s : Snapshot) (t : List Event) :
    snapshotsOf (Event.progress s :: t) = s :: snapshotsOf t := rfl

theorem snapshotsOf_cons_launch (r : ℤ) (b : Bool) (t : List Event) :
    snapshotsOf (Event.launchTraining r b :: t) = snapshotsOf t := rfl

def loopSnapshots (args : Args) (env : Env) (N : ℕ) : List Snapshot :=
  if total_iters_of args N - resumeIter args env ≤ 0 then []
  else snapshotsOf
    (runLoop (mkLoopCfg args env N) ⟨resumeIter args env, []⟩ env.trainLines).2

theorem afterData_trainFail (args : Args) (env : Env) (hf : String) (N : ℕ)
    (hgt : ¬ total_iters_of args N - resumeIter args env ≤ 0)
    (hne : ¬ env.trainExit = 0) : (afterData args env hf N).2 = 1 := by
  simp only [afterData, mkLoopCfg]
  rw [if_neg hgt, if_neg hne]

theorem mainRun_snapshots (args : Args) (env : Env) (N : ℕ) (T V : List String)
    (hconv : convert_jsonl_to_mlx_format env.datasetLines = some (N, T, V))
    (hF : env.fuseOk = true)
    (hT0 : total_iters_of args N - resumeIter args env ≤ 0 ∨ env.trainExit = 0) :
    snapshotsOf (mainRun args env).1 =
      snapshotsOf (preEvents args env) ++
        (startingTrainingSnapshot args N ::
          (snapshotsOf (directEvents args env (resolveHfModel (args.base_model.getD "")) N) ++
            (trainingSnapshot30 args N ::
              (loopSnapshots args env N ++
                [fusingSnapshot args N (runHistory args env N),
                  convertingSnapshot args N (runHistory args env N),
                  importingSnapshot args N (runHistory args env N),
                  completedSnapshot args N (runHistory args env N)])))) := by
  have hmain := mainRun_some args env N T V hconv
  by_cases hskip : total_iters_of args N - resumeIter args env ≤ 0
  · have hAD := afterData_skip args env (resolveHfModel (args.base_model.getD "")) N hskip
    have hh : runHistory args env N = [] := by
      unfold runHistory
      rw [if_pos hskip]
    have hl : loopSnapshots args env N = [] := by
      unfold loopSnapshots
      rw [if_pos hskip]
    rw [hmain, hh, hl]
    show snapshotsOf (_ ++ _) = _
    rw [hAD]
    simp only [snapshotsOf_append, snapshotsOf_cons_progress, snapshotsOf_cons_launch,
      snapshotsOf_nil, List.append_assoc, List.cons_append, List.nil_append,
      snapshotsOf_postChain args env N [] hF]
  · have hAD := afterData_run args env (resolveHfModel (args.base_model.getD "")) N hskip
      (hT0.resolve_left hskip)
    have hh : runHistory args env N =
        (runLoop (mkLoopCfg args env N) ⟨resumeIter args env, []⟩ env.trainLines).1.history := by
      unfold runHistory
      rw [if_neg hskip]
    have hl : loopSnapshots args env N =
        snapshotsOf (runLoop (mkLoopCfg args env N) ⟨resumeIter args env, []⟩ env.trainLines).2 := by
      unfold loopSnapshots
      rw [if_neg hskip]
    rw [hmain, hh, hl]
    show snapshotsOf (_ ++ _) = _
    rw [hAD]
    simp only [snapshotsOf_append, snapshotsOf_cons_progress, snapshotsOf_cons_launch,
      snapshotsOf_nil, List.append_assoc, List.cons_append, List.nil_append,
      snapshotsOf_postChain args env N
        (runLoop (mkLoopCfg args env N) ⟨resumeIter args env, []⟩ env.trainLines).1.history hF]

theorem mem_final_ge (y : ℤ) (hy : y ∈ ([96, 97, 99, 100] : List ℤ)) : 96 ≤ y := by
  simp only [List.mem_cons, List.not_mem_nil, or_false] at hy
  rcases hy with rfl | rfl | rfl | rfl <;> norm_num

theorem sorted_assembly (P D M : List ℤ)
    (hP : List.Sorted (· ≤ ·) P) (hPle : ∀ x ∈ P, x ≤ 15)
    (hD : List.Sorted (· ≤ ·) D) (hD1 : ∀ x ∈ D, 15 ≤ x ∧ x ≤ 30)
    (hM : List.Sorted (· ≤ ·) M) (hM1 : ∀ x ∈ M, 30 ≤ x ∧ x ≤ 95) :
    List.Sorted (· ≤ ·) (P ++ 15 :: (D ++ 30 :: (M ++ [96, 97, 99, 100]))) := by
  have hY : List.Sorted (· ≤ ·) ([96, 97, 99, 100] : List ℤ) := by decide
  have hMY : List.Sorted (· ≤ ·) (M ++ [96, 97, 99, 100]) := by
    rw [List.Sorted, List.pairwise_append]
    refine ⟨hM, hY, ?_⟩
    intro x hx y hy
    have h96 := mem_final_ge y hy
    have := (hM1 x hx).2
    omega
  have hge30 : ∀ y ∈ M ++ [96, 97, 99, 100], (30 : ℤ) ≤ y := by
    intro y hy
    rcases List.mem_append.mp hy with h | h
    · exact (hM1 y h).1
    · have := mem_final_ge y h
      omega
  have h30MY : List.Sorted (· ≤ ·) (30 :: (M ++ [96, 97, 99, 100])) :=
    List.sorted_cons.mpr ⟨hge30, hMY⟩
  have hge15 : ∀ y ∈ D ++ 30 :: (M ++ [96, 97, 99, 100]), (15 : ℤ) ≤ y := by
    intro y hy
    rcases List.mem_append.mp hy with h | h
    · exact (hD1 y h).1
    · rcases List.mem_cons.mp h with rfl | h
      · norm_num
      · have := hge30 y h
        omega
  have hD30 : List.Sorted (· ≤ ·) (D ++ 30 :: (M ++ [96, 97, 99, 100])) := by
    rw [List.Sorted, List.pairwise_append]
    refine ⟨hD, h30MY, ?_⟩
    intro x hx y hy
    have hx30 := (hD1 x hx).2
    rcases List.mem_cons.mp hy with rfl | h
    · omega
    · have := hge30 y h
      omega
  have h15D : List.Sorted (· ≤ ·) (15 :: (D ++ 30 :: (M ++ [96, 97, 99, 100]))) :=
    List.sorted_cons.mpr ⟨hge15, hD30⟩
  rw [List.Sorted, List.pairwise_append]
  refine ⟨hP, h15D, ?_⟩
  intro x hx y hy
  have hx15 := hPle x hx
  rcases List.mem_cons.mp hy with rfl | h
  · omega
  · have := hge15 y h
    omega

/-- C2 (amended): in a successful non-resume run, the snapshots' progress
values are monotonically non-decreasing — provided the training log's
iteration numbers arrive in non-decreasing order (h3/h4), which the
parser does not enforce — training-stage snapshots stay within
[30, 95] = min(30 + int((iter/total)*65), 95), progress 100 appears in
no snapshot but the last, and the final snapshot has progress 100.
The original blanket claim is false for resume runs: the `resuming`
snapshot (progress 5) is written after `preparing_data` (progress 10);
see the counterexample. -/
theorem C2_progress_amended (args : Args) (env : Env)
    (h1 : args.resume = false)
    (h2 : (mainRun args env).2 = 0)
    (h3 : List.Sorted (· ≤ ·) (env.trainLines.filterMap parsedRel))
    (h4 : ∀ r ∈ env.trainLines.filterMap parsedRel, 0 ≤ r) :
    List.Sorted (· ≤ ·) (progressList (mainRun args env).1) ∧
    (∀ s ∈ snapshotsOf (mainRun args env).1, s.stage = "training" →
      30 ≤ s.progress ∧ s.progress ≤ 95) ∧
    (∀ s ∈ (snapshotsOf (mainRun args env).1).dropLast, s.progress ≠ 100) ∧
    ((snapshotsOf (mainRun args env).1).getLast?.map Snapshot.progress = some 100) := by
  cases hconv : convert_jsonl_to_mlx_format env.datasetLines with
  | none =>
    rw [mainRun_none args env hconv] at h2
    simp at h2
  | some res =>
  obtain ⟨N, T, V⟩ := res
  have hres0 : resumeIter args env = 0 := by simp [resumeIter, h1]
  have hmain := mainRun_some args env N T V hconv
  have hexit : (afterData args env (resolveHfModel (args.base_model.getD "")) N).2 = 0 := by
    rw [hmain] at h2
    exact h2
  have hT0 : total_iters_of args N - resumeIter args env ≤ 0 ∨ env.trainExit = 0 := by
    by_cases hskip : total_iters_of args N - resumeIter args env ≤ 0
    · exact Or.inl hskip
    · by_cases htr : env.trainExit = 0
      · exact Or.inr htr
      · rw [afterData_trainFail args env _ N hskip htr] at hexit
        simp at hexit
  have hF : env.fuseOk = true := by
    by_contra hFc
    have hFf : env.fuseOk = false := by simpa using hFc
    by_cases hskip : total_iters_of args N - resumeIter args env ≤ 0
    · have h0 : (postChain args env N []).2 = 0 := by
        rw [afterData_skip args env _ N hskip] at hexit
        exact hexit
      rw [postChain_fail_exit args env N [] hFf] at h0
      simp at h0
    · have htr : env.trainExit = 0 := hT0.resolve_left hskip
      have h0 : (postChain args env N
          (runLoop (mkLoopCfg args env N) ⟨resumeIter args env, []⟩
            env.trainLines).1.history).2 = 0 := by
        rw [afterData_run args env _ N hskip htr] at hexit
        exact hexit
      rw [postChain_fail_exit args env N _ hFf] at h0
      simp at h0
  have hsnap := mainRun_snapshots args env N T V hconv hF hT0
  have hTpos : ¬ total_iters_of args N - resumeIter args env ≤ 0 →
      0 < (mkLoopCfg args env N).total_iters ∧ (mkLoopCfg args env N).total_iters ≠ 0 ∧
        (mkLoopCfg args env N).resume_from_iter = 0 := by
    intro hskip
    have : 0 < total_iters_of args N := by
      rw [hres0] at hskip
      omega
    exact ⟨by simpa [mkLoopCfg] using this, by simp [mkLoopCfg]; omega, by simp [mkLoopCfg, hres0]⟩
  have hpreP : List.map Snapshot.progress (snapshotsOf (preEvents args env)) =
      (if env.mlxInstalled then [0, 5, 10] else [0, 2, 5, 10]) := by
    rw [snapshotsOf_preEvents args env h1]
    by_cases hm : env.mlxInstalled <;>
      simp [hm, initSnapshot, installingSnapshot, loadingModelSnapshot5, preparingDataSnapshot]
  have hdirP : List.map Snapshot.progress
      (snapshotsOf (directEvents args env (resolveHfModel (args.base_model.getD "")) N)) =
      ((if 1 ≤ env.directStage then [20] else []) ++
        (if 2 ≤ env.directStage then [25] else [])) := by
    rw [snapshotsOf_directEvents]
    by_cases hd1 : 1 ≤ env.directStage <;> by_cases hd2 : 2 ≤ env.directStage <;>
      simp [hd1, hd2, loadingModelSnapshot20, applyingLoraSnapshot]
  have hloopP : List.map Snapshot.progress (loopSnapshots args env N) =
      (if total_iters_of args N - resumeIter args env ≤ 0 then []
        else List.map (trainProgressOf (mkLoopCfg args env N))
          (env.trainLines.filterMap parsedRel)) := by
    unfold loopSnapshots
    by_cases hskip : total_iters_of args N - resumeIter args env ≤ 0
    · rw [if_pos hskip, if_pos hskip]
      rfl
    · rw [if_neg hskip, if_neg hskip]
      exact runLoop_progress (mkLoopCfg args env N) (hTpos hskip).2.1 env.trainLines
        ⟨resumeIter args env, []⟩
  have hPL : progressList (mainRun args env).1 =
      List.map Snapshot.progress (snapshotsOf (preEvents args env)) ++
        15 :: (List.map Snapshot.progress
            (snapshotsOf (directEvents args env (resolveHfModel (args.base_model.getD "")) N)) ++
          30 :: (List.map Snapshot.progress (loopSnapshots args env N) ++ [96, 97, 99, 100])) := by
    show List.map Snapshot.progress (snapshotsOf (mainRun args env).1) = _
    rw [hsnap]
    simp [startingTrainingSnapshot, trainingSnapshot30, fusingSnapshot, convertingSnapshot,
      importingSnapshot, completedSnapshot]
  have hloopFacts : ∀ s ∈ loopSnapshots args env N,
      s.stage = "training" ∧ 30 ≤ s.progress ∧ s.progress ≤ 95 := by
    intro s hs
    unfold loopSnapshots at hs
    by_cases hskip : total_iters_of args N - resumeIter args env ≤ 0
    · rw [if_pos hskip] at hs
      exact absurd hs (List.not_mem_nil _)
    · rw [if_neg hskip] at hs
      obtain ⟨hTgt, hTne, hcfg0⟩ := hTpos hskip
      obtain ⟨hst, r, hr, hpr⟩ := runLoop_stages (mkLoopCfg args env N) hTne env.trainLines
        ⟨resumeIter args env, []⟩ s hs
      have hb := trainProgressOf_bounds (mkLoopCfg args env N) r
        (by rw [hcfg0, zero_add]; exact h4 r hr) hTgt
      exact ⟨hst, by rw [hpr]; exact hb.1, by rw [hpr]; exact hb.2⟩
  have hsplit : snapshotsOf (mainRun args env).1 =
      (snapshotsOf (preEvents args env) ++
        startingTrainingSnapshot args N ::
          (snapshotsOf (directEvents args env (resolveHfModel (args.base_model.getD "")) N) ++
            trainingSnapshot30 args N ::
              (loopSnapshots args env N ++
                [fusingSnapshot args N (runHistory args env N),
                  convertingSnapshot args N (runHistory args env N),
                  importingSnapshot args N (runHistory args env N)]))) ++
        [completedSnapshot args N (runHistory args env N)] := by
    rw [hsnap]
    simp
  refine ⟨?_, ?_, ?_, ?_⟩
  · rw [hPL]
    apply sorted_assembly
    · rw [hpreP]
      by_cases hm : env.mlxInstalled <;> simp [hm]
    · rw [hpreP]
      by_cases hm : env.mlxInstalled <;> simp [hm]
    · rw [hdirP]
      by_cases hd1 : 1 ≤ env.directStage <;> by_cases hd2 : 2 ≤ env.directStage <;>
        simp [hd1, hd2]
    · rw [hdirP]
      by_cases hd1 : 1 ≤ env.directStage <;> by_cases hd2 : 2 ≤ env.directStage <;>
        simp [hd1, hd2]
    · rw [hloopP]
      by_cases hskip : total_iters_of args N - resumeIter args env ≤ 0
      · rw [if_pos hskip]
        exact List.sorted_nil
      · rw [if_neg hskip]
        obtain ⟨hTgt, hTne, hcfg0⟩ := hTpos hskip
        exact sorted_map_trainProgress (mkLoopCfg args env N) hTgt hcfg0 _ h3 h4
    · rw [hloopP]
      by_cases hskip : total_iters_of args N - resumeIter args env ≤ 0
      · rw [if_pos hskip]
        intro x hx
        exact absurd hx (List.not_mem_nil _)
      · rw [if_neg hskip]
        obtain ⟨hTgt, hTne, hcfg0⟩ := hTpos hskip
        intro x hx
        obtain ⟨r, hr, rfl⟩ := List.mem_map.mp hx
        exact trainProgressOf_bounds (mkLoopCfg args env N) r
          (by rw [hcfg0, zero_add]; exact h4 r hr) hTgt
  · intro s hs hstage
    rw [hsnap] at hs
    rcases List.mem_append.mp hs with h | h
    · rw [snapshotsOf_preEvents args env h1] at h
      by_cases hm : env.mlxInstalled
      · rw [if_pos hm] at h
        simp at h
        rcases h with rfl | rfl | rfl <;>
          simp [initSnapshot, loadingModelSnapshot5, preparingDataSnapshot] at hstage
      · rw [if_neg hm] at h
        simp at h
        rcases h with rfl | rfl | rfl | rfl <;>
          simp [initSnapshot, installingSnapshot, loadingModelSnapshot5,
            preparingDataSnapshot] at hstage
    · rcases List.mem_cons.mp h with rfl | h
      · simp [startingTrainingSnapshot] at hstage
      · rcases List.mem_append.mp h with h | h
        · rw [snapshotsOf_directEvents] at h
          rcases List.mem_append.mp h with h | h
          · split at h
            · rw [List.mem_singleton] at h
              subst h
              simp [loadingModelSnapshot20] at hstage
            · exact absurd h (List.not_mem_nil _)
          · split at h
            · rw [List.mem_singleton] at h
              subst h
              simp [applyingLoraSnapshot] at hstage
            · exact absurd h (List.not_mem_nil _)
        · rcases List.mem_cons.mp h with rfl | h
          · refine ⟨?_, ?_⟩ <;> simp [trainingSnapshot30]
          · rcases List.mem_append.mp h with h | h
            · obtain ⟨_, hb1, hb2⟩ := hloopFacts s h
              exact ⟨hb1, hb2⟩
            · simp at h
              rcases h with rfl | rfl | rfl | rfl <;>
                simp [fusingSnapshot, convertingSnapshot, importingSnapshot,
                  completedSnapshot] at hstage
  · rw [hsplit, List.dropLast_concat]
    intro s hs
    rcases List.mem_append.mp hs with h | h
    · rw [snapshotsOf_preEvents args env h1] at h
      by_cases hm : env.mlxInstalled
      · rw [if_pos hm] at h
        simp at h
        rcases h with rfl | rfl | rfl <;>
          simp [initSnapshot, loadingModelSnapshot5, preparingDataSnapshot]
      · rw [if_neg hm] at h
        simp at h
        rcases h with rfl | rfl | rfl | rfl <;>
          simp [initSnapshot, installingSnapshot, loadingModelSnapshot5, preparingDataSnapshot]
    · rcases List.mem_cons.mp h with rfl | h
      · simp [startingTrainingSnapshot]
      · rcases List.mem_append.mp h with h | h
        · rw [snapshotsOf_directEvents] at h
          rcases List.mem_append.mp h with h | h
          · split at h
            · rw [List.mem_singleton] at h
              subst h
              simp [loadingModelSnapshot20]
            · exact absurd h (List.not_mem_nil _)
          · split at h
            · rw [List.mem_singleton] at h
              subst h
              simp [applyingLoraSnapshot]
            · exact absurd h (List.not_mem_nil _)
        · rcases List.mem_cons.mp h with rfl | h
          · simp [trainingSnapshot30]
          · rcases List.mem_append.mp h with h | h
            · obtain ⟨_, hb1, hb2⟩ := hloopFacts s h
              omega
            · simp at h
              rcases h with rfl | rfl | rfl <;>
                simp [fusingSnapshot, convertingSnapshot, importingSnapshot]
  · rw [hsplit, List.getLast?_concat]
    simp [completedSnapshot]

/-- Counterexamples to the original monotonicity claim.  First: in a
resume run the `resuming` snapshot (progress 5, train.py:217-226) is
written after `preparing_data` (progress 10), so the trace dips
10 -> 5.  Second: even in a non-resume run, if the training subprocess
emits its iteration lines out of order the training-stage progress
values follow them down (84 then 51 here) — the scraping loop does not
enforce an order, which is why the amended theorem assumes one. -/
theorem C2_counterexample :
    ¬ List.Sorted (· ≤ ·) (progressList (mainRun argsResume envResume).1) ∧
      (argsFresh.resume = false ∧
        ¬ List.Sorted (· ≤ ·) (progressList (mainRun argsFresh envOutOfOrder).1)) := by
  refine ⟨by decide, by decide, by decide⟩

theorem C2_progress_amended_witness :
    argsFresh.resume = false ∧ (mainRun argsFresh envFresh).2 = 0 ∧
      List.Sorted (· ≤ ·) (progressList (mainRun argsFresh envFresh).1) ∧
      ((snapshotsOf (mainRun argsFresh envFresh).1).getLast?.map Snapshot.progress = some 100) :=
  ⟨by decide, by decide,
    (C2_progress_amended argsFresh envFresh (by decide) (by decide) (by decide) (by decide)).1,
    (C2_progress_amended argsFresh envFresh (by decide) (by decide) (by decide) (by decide)).2.2.2⟩
